import Mathlib

/-!
# Health-state and SLA tracker (`state/state.go`)

A shallow embedding of package `state` of replication-manager.

Modelling conventions.

* `int64` fields are integers; every `+` and `-` of the source is followed by
  `wrap64`, the reduction to the two's-complement range `[-2^63, 2^63)`.
* A Go `map[string]State` is a list of key/record pairs.  The order of the list
  stands for the order in which a `range` loop visits the entries, which Go
  leaves unspecified; properties of results are therefore stated up to order.
  A list represents a Go map when its keys are pairwise distinct (`Map.WF`).
  The lists are the maps made by `make`, as `NewMap` does.  The nil map of Go,
  the zero value of type `Map`, reads as empty and cannot be written; a value
  of type `Map` that may be nil is a `MapValue`, `none` being the nil map.  The
  maps of an aggregate reached from `Init` are all made.
* `*Map` fields are `Option Map`, `none` being the nil pointer.  The two maps
  of a state machine are distinct objects (`Init` and `ClearState` allocate
  fresh ones and nothing else assigns the pointers), so they are held by value.
* `sync.Mutex` is the boolean `mu` (true when held).  Calls are sequential:
  `Lock` on a held mutex never returns and `Unlock` of a free mutex is a fatal
  error; like a nil dereference both are the result `none`.
* `time.Now().Unix()` is an extra argument `now`.
* A run of the aggregate is a list of calls of its public methods (`Op`), made
  one after the other (`step`, `run`); properties of reachable states are
  stated over runs that start with `Init`.
* `float64` values are exact rationals with a sign, rounded after each operation
  as IEEE 754 binary64 prescribes; see the section on float64 below.
-/

namespace state

/-! ## int64 arithmetic -/

/-- Reduction of an integer to the int64 range, as Go's wrapping arithmetic does. -/
def wrap64 (x : Int) : Int := (x + 9223372036854775808) % 18446744073709551616 - 9223372036854775808

/-- Go `a + b` on int64. -/
def add64 (a b : Int) : Int := wrap64 (a + b)

/-- Go `a - b` on int64. -/
def sub64 (a b : Int) : Int := wrap64 (a - b)

/-- Range of an int64 value. -/
def isInt64 (x : Int) : Prop := -9223372036854775808 ≤ x ∧ x < 9223372036854775808

instance (x : Int) : Decidable (isInt64 x) := by unfold isInt64; infer_instance

/-! ## float64 arithmetic and formatting

The percentage getters compute in `float64` and print with
`strconv.FormatFloat(x, 'f', 5, 64)`.  A `float64` is modelled by its value: not
a number, an infinity, or a sign with a rational magnitude.  Results of
operations are rounded to the nearest number with a 53-bit significand, ties to
the even significand (IEEE 754 binary64, the default rounding of Go).  The
exponent range is not limited: operands here come from `int64` values, so every
non-zero magnitude met lies between `2^-64` and `2^71`, far inside the normal
range of binary64, where neither overflow nor gradual underflow occurs. -/

/-- Nearest integer to a rational, a tie going to the even neighbour. -/
def roundHalfEven (q : ℚ) : ℤ :=
  if q - ⌊q⌋ < 1 / 2 then ⌊q⌋
  else if 1 / 2 < q - ⌊q⌋ then ⌊q⌋ + 1
  else if ⌊q⌋ % 2 = 0 then ⌊q⌋ else ⌊q⌋ + 1

/-- Nearest binary64 to a positive rational `q`: with `2^e ≤ q < 2^(e+1)` the
candidates are the multiples of `2^(e-52)`. -/
def roundBinary64 (q : ℚ) : ℚ :=
  roundHalfEven (q / 2 ^ (Int.log 2 q - 52)) * 2 ^ (Int.log 2 q - 52)

/-- Value of a Go `float64`; `neg` is the sign bit and `mag` the magnitude. -/
inductive Float64 where
  | nan : Float64
  | inf (neg : Bool) : Float64
  | fin (neg : Bool) (mag : ℚ) : Float64
deriving DecidableEq, Repr

namespace Float64

/-- Go conversion `float64(x)` of an int64 `x`. -/
def ofInt64 (x : Int) : Float64 :=
  if x = 0 then fin false 0 else fin (decide (x < 0)) (roundBinary64 (x.natAbs : ℚ))

/-- Go `a * b` on float64. -/
def mul : Float64 → Float64 → Float64
  | nan, _ => nan
  | _, nan => nan
  | inf s, inf t => inf (xor s t)
  | inf s, fin t b => if b = 0 then nan else inf (xor s t)
  | fin s a, inf t => if a = 0 then nan else inf (xor s t)
  | fin s a, fin t b =>
    if a = 0 ∨ b = 0 then fin (xor s t) 0 else fin (xor s t) (roundBinary64 (a * b))

/-- Go `a / b` on float64; division by zero gives an infinity or not a number. -/
def div : Float64 → Float64 → Float64
  | nan, _ => nan
  | _, nan => nan
  | inf _, inf _ => nan
  | inf s, fin t _ => inf (xor s t)
  | fin s _, inf t => fin (xor s t) 0
  | fin s a, fin t b =>
    if b = 0 then (if a = 0 then nan else inf (xor s t))
    else if a = 0 then fin (xor s t) 0
    else fin (xor s t) (roundBinary64 (a / b))

end Float64

/-- Decimal digit character of `n % 10`. -/
def digit (n : Nat) : Char := Char.ofNat (48 + n % 10)

/-- Go `strconv.FormatFloat(x, 'f', 5, 64)`: sign, integer part, point and five
fraction digits of the exact value rounded to five decimals, a tie going to the
even digit; "NaN", "+Inf" and "-Inf" for the values that are not finite. -/
def FormatFloat5 : Float64 → String
  | Float64.nan => "NaN"
  | Float64.inf true => "-Inf"
  | Float64.inf false => "+Inf"
  | Float64.fin neg mag =>
    let n := (roundHalfEven (mag * 100000)).toNat
    (if neg then "-" else "") ++ String.mk (Nat.toDigits 10 (n / 100000)) ++ "." ++
      String.mk [digit (n / 10000), digit (n / 1000), digit (n / 100), digit (n / 10), digit n]

/-! ## Records and condition sets -/

/-- Go `type State struct`. -/
structure State where
  ErrType : String
  ErrDesc : String
  ErrFrom : String
deriving DecidableEq, Repr

/-- Go `type StateHttp struct`. -/
structure StateHttp where
  ErrNumber : String
  ErrDesc : String
  ErrFrom : String
deriving DecidableEq, Repr

/-- Go `type Map map[string]State`, entries in iteration order. -/
abbrev Map := List (String × State)

/-- Go `NewMap`: `make(Map)`. -/
def NewMap : Map := []

namespace Map

/-- Keys of a map, in iteration order. -/
def keys (m : Map) : List String := m.map Prod.fst

/-- A list represents a Go map when no key occurs twice. -/
def WF (m : Map) : Prop := m.keys.Nodup

instance (m : Map) : Decidable (WF m) := by unfold WF; infer_instance

/-- Go `v, ok := m[key]`: `some v` when `ok`. -/
def get (m : Map) (key : String) : Option State :=
  match m with
  | [] => none
  | (k, v) :: rest => if k = key then some v else get rest key

/-- Go `delete(m, key)`. -/
def delete (m : Map) (key : String) : Map :=
  m.filter (fun e => decide (e.1 ≠ key))

/-- Go `m[key] = s`. -/
def set (m : Map) (key : String) (s : State) : Map :=
  delete m key ++ [(key, s)]

/-- Go `func (m Map) Add(key string, s State)`. -/
def Add (m : Map) (key : String) (s : State) : Map :=
  match get m key with
  | some _ => m
  | none => set m key s

/-- Go `func (m Map) Delete(key string)`. -/
def Delete (m : Map) (key : String) : Map :=
  delete m key

/-- Go `func (m Map) Search(key string) bool`. -/
def Search (m : Map) (key : String) : Bool :=
  match get m key with
  | some _ => true
  | none => false

end Map

/-- A value of the Go type `Map`: `none` is the nil map (the zero value,
`var m Map`), `some m` a map made by `make`. -/
abbrev MapValue := Option Map

namespace MapValue

/-- Go `v, ok := m[key]` on a value that may be nil: a nil map has no entry. -/
def get (m : MapValue) (key : String) : Option State :=
  match m with
  | none => none
  | some made => Map.get made key

/-- Go `m[key] = s` on a value that may be nil: the result is `none` when the
statement panics (assignment to entry in nil map). -/
def set (m : MapValue) (key : String) (s : State) : Option MapValue :=
  match m with
  | none => none
  | some made => some (some (Map.set made key s))

/-- Go `func (m Map) Add(key string, s State)` on a value that may be nil; the
result is `none` when the call panics. -/
def Add (m : MapValue) (key : String) (s : State) : Option MapValue :=
  match get m key with
  | some _ => some m
  | none => set m key s

/-- Go `func (m Map) Search(key string) bool` on a value that may be nil. -/
def Search (m : MapValue) (key : String) : Bool :=
  match get m key with
  | some _ => true
  | none => false

end MapValue

/-! ## The aggregate -/

/-- Go `type StateMachine struct`; `mu` is the embedded `sync.Mutex`. -/
structure StateMachine where
  CurState : Option Map
  OldState : Option Map
  discovered : Bool
  lasttime : Int
  firsttime : Int
  uptime : Int
  uptimeFailable : Int
  uptimeSemisync : Int
  lastState : Int
  heartbeats : Int
  avgReplicationDelay : Nat
  inFailover : Bool
  mu : Bool
deriving DecidableEq, Repr

/-- Go `type Sla struct`. -/
structure Sla where
  firsttime : Int
  uptime : Int
  uptimeFailable : Int
  uptimeSemisync : Int
deriving DecidableEq, Repr

/-- Go zero value of `StateMachine` (`var SM StateMachine`): nil maps, zero counters,
free mutex. -/
def zeroValue : StateMachine :=
  { CurState := none
    OldState := none
    discovered := false
    lasttime := 0
    firsttime := 0
    uptime := 0
    uptimeFailable := 0
    uptimeSemisync := 0
    lastState := 0
    heartbeats := 0
    avgReplicationDelay := 0
    inFailover := false
    mu := false }

/-- Go `SM.Lock()`: does not return while the mutex is held. -/
def Lock (SM : StateMachine) : Option StateMachine :=
  if SM.mu then none else some { SM with mu := true }

/-- Go `SM.Unlock()`: fatal error when the mutex is not held. -/
def Unlock (SM : StateMachine) : Option StateMachine :=
  if SM.mu then some { SM with mu := false } else none

/-- Go `func (SM *StateMachine) GetSla() Sla`. -/
def GetSla (SM : StateMachine) : Sla :=
  { firsttime := SM.firsttime
    uptime := SM.uptime
    uptimeFailable := SM.uptimeFailable
    uptimeSemisync := SM.uptimeSemisync }

/-- Go `func (SM *StateMachine) SetSla(mySla Sla)`. -/
def SetSla (SM : StateMachine) (mySla : Sla) : StateMachine :=
  { SM with
    firsttime := mySla.firsttime
    uptime := mySla.uptime
    uptimeFailable := mySla.uptimeFailable
    uptimeSemisync := mySla.uptimeSemisync }

/-- Go `func (SM *StateMachine) Init()`. -/
def Init (SM : StateMachine) (now : Int) : StateMachine :=
  { SM with
    CurState := some NewMap
    OldState := some NewMap
    discovered := false
    lasttime := now
    firsttime := now
    uptime := 0
    uptimeFailable := 0
    uptimeSemisync := 0
    lastState := 0
    heartbeats := 0 }

/-- Go `func (SM *StateMachine) SetFailoverState()`. -/
def SetFailoverState (SM : StateMachine) : Option StateMachine := do
  let SM ← Lock SM
  let SM := { SM with inFailover := true }
  Unlock SM

/-- Go `func (SM *StateMachine) RemoveFailoverState()`. -/
def RemoveFailoverState (SM : StateMachine) : Option StateMachine := do
  let SM ← Lock SM
  let SM := { SM with inFailover := false }
  Unlock SM

/-- Go `func (SM *StateMachine) IsInFailover() bool`. -/
def IsInFailover (SM : StateMachine) : Bool :=
  SM.inFailover

/-- Go `func (SM *StateMachine) AddState(key string, s State)`. -/
def AddState (SM : StateMachine) (key : String) (s : State) : Option StateMachine := do
  let SM ← Lock SM
  let cur ← SM.CurState
  let SM := { SM with CurState := some (Map.Add cur key s) }
  Unlock SM

/-- Go `func (SM *StateMachine) IsInState(key string) bool`. -/
def IsInState (SM : StateMachine) (key : String) : Option (Bool × StateMachine) := do
  let SM ← Lock SM
  let old ← SM.OldState
  if Map.Search old key = false then
    let SM ← Unlock SM
    pure (false, SM)
  else
    let SM ← Unlock SM
    pure (true, SM)

/-- Go `func (SM *StateMachine) DeleteState(key string)`. -/
def DeleteState (SM : StateMachine) (key : String) : Option StateMachine := do
  let SM ← Lock SM
  let cur ← SM.CurState
  let SM := { SM with CurState := some (Map.Delete cur key) }
  Unlock SM

/-- Go `func (SM *StateMachine) GetHeartbeats() int64`. -/
def GetHeartbeats (SM : StateMachine) : Int :=
  SM.heartbeats

/-- Go `func (SM *StateMachine) GetUptime() string`. -/
def GetUptime (SM : StateMachine) : String :=
  let up := FormatFloat5 (Float64.div
    (Float64.mul (Float64.fin false 100) (Float64.ofInt64 SM.uptime))
    (Float64.ofInt64 (sub64 SM.lasttime SM.firsttime)))
  if up = "100.00000" then "99.99999" else up

/-- Go `func (SM *StateMachine) GetUptimeSemiSync() string`. -/
def GetUptimeSemiSync (SM : StateMachine) : String :=
  let up := FormatFloat5 (Float64.div
    (Float64.mul (Float64.fin false 100) (Float64.ofInt64 SM.uptimeSemisync))
    (Float64.ofInt64 (sub64 SM.lasttime SM.firsttime)))
  if up = "100.00000" then "99.99999" else up

/-- Go `func (SM *StateMachine) ResetUpTime()`. -/
def ResetUpTime (SM : StateMachine) (now : Int) : StateMachine :=
  { SM with
    lasttime := now
    firsttime := now
    uptime := 0
    uptimeFailable := 0
    uptimeSemisync := 0 }

/-- Go `func (SM *StateMachine) GetUptimeFailable() string`. -/
def GetUptimeFailable (SM : StateMachine) : String :=
  let up := FormatFloat5 (Float64.div
    (Float64.mul (Float64.fin false 100) (Float64.ofInt64 SM.uptimeFailable))
    (Float64.ofInt64 (sub64 SM.lasttime SM.firsttime)))
  if up = "100.00000" then "99.99999" else up

/-- The loop `for _, value := range m { if value.ErrType == "ERROR" { return } }`:
true when the loop leaves through the early return. -/
def rangeFindsError : List (String × State) → Bool
  | [] => false
  | (_, value) :: rest => if value.ErrType = "ERROR" then true else rangeFindsError rest

/-- Go `func (SM *StateMachine) IsFailable() bool`. -/
def IsFailable (SM : StateMachine) : Option (Bool × StateMachine) := do
  let SM ← Lock SM
  let old ← SM.OldState
  if rangeFindsError old then
    let SM ← Unlock SM
    pure (false, SM)
  else
    let SM := { SM with discovered := true }
    let SM ← Unlock SM
    pure (true, SM)

/-- Go `func (SM *StateMachine) SetMasterUpAndSync(IsSemiSynced bool, IsNotDelay bool)`.
The operator `&&` evaluates `SM.IsFailable()` only when its left operand is true. -/
def SetMasterUpAndSync (SM : StateMachine) (now : Int) (IsSemiSynced IsNotDelay : Bool) :
    Option StateMachine := do
  let timenow := now
  let SM ←
    if IsSemiSynced = true then do
      let (ok, SM) ← IsFailable SM
      if ok = true then
        pure { SM with uptimeSemisync := add64 SM.uptimeSemisync (sub64 timenow SM.lasttime) }
      else pure SM
    else pure SM
  let SM ←
    if IsNotDelay = true then do
      let (ok, SM) ← IsFailable SM
      if ok = true then
        pure { SM with uptimeFailable := add64 SM.uptimeFailable (sub64 timenow SM.lasttime) }
      else pure SM
    else pure SM
  let (ok, SM) ← IsFailable SM
  let SM :=
    if ok = true then
      { SM with uptime := add64 SM.uptime (sub64 timenow SM.lasttime) }
    else SM
  let SM := { SM with lasttime := timenow }
  let SM := { SM with heartbeats := add64 SM.heartbeats 1 }
  pure SM

/-- Go `func (SM *StateMachine) ClearState()`. -/
def ClearState (SM : StateMachine) : Option StateMachine := do
  let SM ← Lock SM
  let SM := { SM with OldState := SM.CurState }
  let SM := { SM with CurState := none }
  let SM := { SM with CurState := some NewMap }
  Unlock SM

/-- Go `func (SM *StateMachine) CanMonitor() bool`. -/
def CanMonitor (SM : StateMachine) : Option (Bool × StateMachine) := do
  let SM ← Lock SM
  let cur ← SM.CurState
  if rangeFindsError cur then
    let SM ← Unlock SM
    pure (false, SM)
  else
    let SM := { SM with discovered := true }
    let SM ← Unlock SM
    pure (true, SM)

/-- Go `func (SM *StateMachine) UnDiscovered()`. -/
def UnDiscovered (SM : StateMachine) : Option StateMachine := do
  let SM ← Lock SM
  let SM := { SM with discovered := false }
  Unlock SM

/-- Go `func (SM *StateMachine) IsDiscovered() bool`. -/
def IsDiscovered (SM : StateMachine) : Bool :=
  SM.discovered

/-- First loop of `GetStates`: one line for each entry of `old` that `cur` lacks. -/
def closingPass (cur : Map) : List (String × State) → List String → List String
  | [], log => log
  | (key2, value2) :: rest, log =>
    if Map.Search cur key2 = false then
      closingPass cur rest (log ++ [key2 ++ " CLOSING " ++ value2.ErrDesc])
    else closingPass cur rest log

/-- Second loop of `GetStates`: one line for each entry of `cur` that `old` lacks. -/
def openingPass (old : Map) : List (String × State) → List String → List String
  | [], log => log
  | (key, value) :: rest, log =>
    if Map.Search old key = false then
      openingPass old rest (log ++ [key ++ " " ++ value.ErrDesc])
    else openingPass old rest log

/-- Go `func (SM *StateMachine) GetStates() []string`. -/
def GetStates (SM : StateMachine) : Option (List String × StateMachine) := do
  let log : List String := []
  let SM ← Lock SM
  let old ← SM.OldState
  let cur ← SM.CurState
  let log := closingPass cur old log
  let log := openingPass old cur log
  let SM ← Unlock SM
  pure (log, SM)

/-- Loop of `GetOpenErrors`. -/
def openErrorsPass : List (String × State) → List StateHttp → List StateHttp
  | [], log => log
  | (key, value) :: rest, log =>
    if value.ErrType = "ERROR" then
      openErrorsPass rest
        (log ++ [{ ErrNumber := key, ErrDesc := value.ErrDesc, ErrFrom := value.ErrFrom }])
    else openErrorsPass rest log

/-- Loop of `GetOpenWarnings`. -/
def openWarningsPass : List (String × State) → List StateHttp → List StateHttp
  | [], log => log
  | (key, value) :: rest, log =>
    if value.ErrType ≠ "ERROR" then
      openWarningsPass rest
        (log ++ [{ ErrNumber := key, ErrDesc := value.ErrDesc, ErrFrom := value.ErrFrom }])
    else openWarningsPass rest log

/-- Go `func (SM *StateMachine) GetOpenErrors() []StateHttp`. -/
def GetOpenErrors (SM : StateMachine) : Option (List StateHttp × StateMachine) := do
  let log : List StateHttp := []
  let SM ← Lock SM
  let old ← SM.OldState
  let log := openErrorsPass old log
  let SM ← Unlock SM
  pure (log, SM)

/-- Go `func (SM *StateMachine) GetOpenWarnings() []StateHttp`. -/
def GetOpenWarnings (SM : StateMachine) : Option (List StateHttp × StateMachine) := do
  let log : List StateHttp := []
  let SM ← Lock SM
  let old ← SM.OldState
  let log := openWarningsPass old log
  let SM ← Unlock SM
  pure (log, SM)

/-! ## Runs of public operations -/

/-- A call of one public method of `StateMachine` with its arguments; the three
methods that read the clock carry the value `time.Now().Unix()` returns. -/
inductive Op where
  | GetSla
  | SetSla (mySla : Sla)
  | Init (now : Int)
  | SetFailoverState
  | RemoveFailoverState
  | IsInFailover
  | AddState (key : String) (s : State)
  | IsInState (key : String)
  | DeleteState (key : String)
  | GetHeartbeats
  | GetUptime
  | GetUptimeSemiSync
  | ResetUpTime (now : Int)
  | GetUptimeFailable
  | IsFailable
  | SetMasterUpAndSync (now : Int) (IsSemiSynced IsNotDelay : Bool)
  | ClearState
  | CanMonitor
  | UnDiscovered
  | IsDiscovered
  | GetStates
  | GetOpenErrors
  | GetOpenWarnings
deriving DecidableEq, Repr

/-- State of the aggregate after one call that returns; the value the call
returns is dropped.  The result is `none` when the call does not return. -/
def step (SM : StateMachine) : Op → Option StateMachine
  | .GetSla => some SM
  | .SetSla mySla => some (SetSla SM mySla)
  | .Init now => some (Init SM now)
  | .SetFailoverState => SetFailoverState SM
  | .RemoveFailoverState => RemoveFailoverState SM
  | .IsInFailover => some SM
  | .AddState key s => AddState SM key s
  | .IsInState key => (IsInState SM key).map Prod.snd
  | .DeleteState key => DeleteState SM key
  | .GetHeartbeats => some SM
  | .GetUptime => some SM
  | .GetUptimeSemiSync => some SM
  | .ResetUpTime now => some (ResetUpTime SM now)
  | .GetUptimeFailable => some SM
  | .IsFailable => (IsFailable SM).map Prod.snd
  | .SetMasterUpAndSync now IsSemiSynced IsNotDelay =>
    SetMasterUpAndSync SM now IsSemiSynced IsNotDelay
  | .ClearState => ClearState SM
  | .CanMonitor => (CanMonitor SM).map Prod.snd
  | .UnDiscovered => UnDiscovered SM
  | .IsDiscovered => some SM
  | .GetStates => (GetStates SM).map Prod.snd
  | .GetOpenErrors => (GetOpenErrors SM).map Prod.snd
  | .GetOpenWarnings => (GetOpenWarnings SM).map Prod.snd

/-- State of the aggregate after a sequence of calls made one after the other. -/
def run : StateMachine → List Op → Option StateMachine
  | SM, [] => some SM
  | SM, op :: rest => (step SM op).bind fun S => run S rest

/-- True for the calls of `SetMasterUpAndSync`. -/
def Op.isTick : Op → Bool
  | .SetMasterUpAndSync _ _ _ => true
  | _ => false

/-- True for the calls of `Init`. -/
def Op.isInit : Op → Bool
  | .Init _ => true
  | _ => false

/-- Number of `SetMasterUpAndSync` calls in a sequence of calls. -/
def ticks (ops : List Op) : Nat := (ops.filter Op.isTick).length

/-- True for the calls that clear `discovered` by assignment: `Init` and
`UnDiscovered`. -/
def Op.resetsDiscovery : Op → Bool
  | .Init _ => true
  | .UnDiscovered => true
  | _ => false

/-- True when the call `op`, made in state `SM`, evaluates health and finds it
good: `CanMonitor` returns true, `IsFailable` returns true, or the first call of
`IsFailable` that `SetMasterUpAndSync` makes (it is made in state `SM`) returns
true. -/
def evaluatesHealthy (SM : StateMachine) : Op → Bool
  | .CanMonitor => (CanMonitor SM).map Prod.fst == some true
  | .IsFailable => (IsFailable SM).map Prod.fst == some true
  | .SetMasterUpAndSync _ _ _ => (IsFailable SM).map Prod.fst == some true
  | _ => false

/-- True for the calls of `SetSla`. -/
def Op.isSetSla : Op → Bool
  | .SetSla _ => true
  | _ => false

/-- Clock reading of a call, for the three methods that read the clock. -/
def Op.clock : Op → Option Int
  | .Init now => some now
  | .ResetUpTime now => some now
  | .SetMasterUpAndSync now _ _ => some now
  | _ => none

/-- Each clock reading of the run is at least the reading before it; `last` is
the reading that precedes the run. -/
def clockAscends : Int → List Op → Bool
  | _, [] => true
  | last, op :: rest =>
    match Op.clock op with
    | some now => decide (last ≤ now) && clockAscends now rest
    | none => clockAscends last rest

/-- No int64 overflow in a tick made in state `SM` at reading `now`: when
`OldState` holds no "ERROR" record, so that the tick computes
`uptime + (now - lasttime)`, the difference and the sum are int64 values. -/
def tickInRange (SM : StateMachine) (now : Int) : Bool :=
  match SM.OldState with
  | some old =>
    rangeFindsError old ||
      (decide (isInt64 (now - SM.lasttime)) &&
        decide (isInt64 (SM.uptime + (now - SM.lasttime))))
  | none => true

/-- No int64 overflow in any tick of the run that starts in state `SM`. -/
def noOverflow : StateMachine → List Op → Bool
  | _, [] => true
  | SM, op :: rest =>
    (match op with
      | .SetMasterUpAndSync now _ _ => tickInRange SM now
      | _ => true) &&
    (match step SM op with
      | some S => noOverflow S rest
      | none => true)

/-! ## Concrete aggregates -/

/-- The aggregate reached from `Init` at 1500000000 by a healthy tick at 1500000010,
`AddState` of an "ERROR" record and `ClearState`. -/
def tickedThenFailed : StateMachine :=
  { zeroValue with
    CurState := some []
    OldState := some [("ERR00012", ⟨"ERROR", "Could not find a master", "TOPO"⟩)]
    discovered := true
    lasttime := 1500000010
    firsttime := 1500000000
    uptime := 10
    uptimeFailable := 10
    uptimeSemisync := 10
    heartbeats := 1 }

/-- An aggregate in the middle of a cycle: `OldState` holds keys A and B,
`CurState` holds keys B and C, and the two records under B differ. -/
def midCycle : StateMachine :=
  { zeroValue with
    CurState := some [("B", ⟨"WARNING", "b is slow again", "REPL"⟩),
      ("C", ⟨"ERROR", "c is down", "TOPO"⟩)]
    OldState := some [("A", ⟨"ERROR", "a is down", "TOPO"⟩),
      ("B", ⟨"WARNING", "b is slow", "REPL"⟩)]
    lasttime := 1500000010
    firsttime := 1500000000
    uptime := 10
    heartbeats := 1 }

/-- The aggregate reached from `Init` of the zero value at 1500000000 by a healthy
tick at 1500000010 with both flags set. -/
def healthyTicked : StateMachine :=
  { zeroValue with
    CurState := some []
    OldState := some []
    discovered := true
    lasttime := 1500000010
    firsttime := 1500000000
    uptime := 10
    uptimeFailable := 10
    uptimeSemisync := 10
    heartbeats := 1 }

/-- Calls of three cycles after `Init`: a healthy tick, an "ERROR" record rotated
into `OldState`, a tick that credits nothing, a rotation that clears the record,
and a healthy tick without `IsNotDelay`. -/
def scenarioOps : List Op :=
  [Op.SetMasterUpAndSync 1500000010 true true,
    Op.AddState "ERR00012" ⟨"ERROR", "Could not find a master", "TOPO"⟩,
    Op.ClearState,
    Op.SetMasterUpAndSync 1500000020 true true,
    Op.ClearState,
    Op.SetMasterUpAndSync 1500000030 true false]

/-- The aggregate reached from the zero value by `Init` at 1500000000 followed by
`scenarioOps`. -/
def scenarioEnd : StateMachine :=
  { zeroValue with
    CurState := some []
    OldState := some []
    discovered := true
    lasttime := 1500000030
    firsttime := 1500000000
    uptime := 20
    uptimeFailable := 10
    uptimeSemisync := 20
    heartbeats := 3 }

/-- A run of 2^63 - 1 ticks, all at clock reading 0. -/
def manyTicks : List Op :=
  List.replicate 9223372036854775807 (Op.SetMasterUpAndSync 0 false false)

/-- The aggregate `midCycle` with both flags set, at a moment when another
goroutine holds the mutex. -/
def heldElsewhere : StateMachine :=
  { midCycle with discovered := true, inFailover := true, mu := true }

/-! ## Auxiliary facts -/

theorem wrap64_of_isInt64 (x : Int) (h : isInt64 x) : wrap64 x = x := by
  unfold isInt64 at h
  unfold wrap64
  omega

theorem rangeFindsError_iff (m : Map) :
    rangeFindsError m = true ↔ ∃ e ∈ m, e.2.ErrType = "ERROR" := by
  induction m with
  | nil => simp [rangeFindsError]
  | cons e rest ih =>
    obtain ⟨k, v⟩ := e
    by_cases h : v.ErrType = "ERROR"
    · simp [rangeFindsError, h]
    · simp [rangeFindsError, h, ih]

theorem rangeFindsError_eq_false (m : Map) (h : ∀ e ∈ m, e.2.ErrType ≠ "ERROR") :
    rangeFindsError m = false := by
  cases hb : rangeFindsError m with
  | false => rfl
  | true =>
    obtain ⟨e, he, herr⟩ := (rangeFindsError_iff m).1 hb
    exact absurd herr (h e he)

theorem IsFailable_eq (SM : StateMachine) (old : Map) (hmu : SM.mu = false)
    (hold : SM.OldState = some old) :
    IsFailable SM =
      some (!rangeFindsError old,
        { SM with discovered := SM.discovered || !rangeFindsError old }) := by
  obtain ⟨c, o, d, lt, ft, u, uf, us, ls, hb, avg, inf, mu⟩ := SM
  simp only at hmu hold
  subst hmu hold
  cases h : rangeFindsError old <;> simp [IsFailable, Lock, Unlock, h]

theorem CanMonitor_eq (SM : StateMachine) (cur : Map) (hmu : SM.mu = false)
    (hcur : SM.CurState = some cur) :
    CanMonitor SM =
      some (!rangeFindsError cur,
        { SM with discovered := SM.discovered || !rangeFindsError cur }) := by
  obtain ⟨c, o, d, lt, ft, u, uf, us, ls, hb, avg, inf, mu⟩ := SM
  simp only at hmu hcur
  subst hmu hcur
  cases h : rangeFindsError cur <;> simp [CanMonitor, Lock, Unlock, h]

theorem SetMasterUpAndSync_eq (SM : StateMachine) (old : Map) (now : Int)
    (IsSemiSynced IsNotDelay : Bool) (hmu : SM.mu = false) (hold : SM.OldState = some old) :
    SetMasterUpAndSync SM now IsSemiSynced IsNotDelay =
      some (if rangeFindsError old = true then
          { SM with lasttime := now, heartbeats := add64 SM.heartbeats 1 }
        else
          { SM with
            discovered := true
            uptimeSemisync :=
              if IsSemiSynced = true then add64 SM.uptimeSemisync (sub64 now SM.lasttime)
              else SM.uptimeSemisync
            uptimeFailable :=
              if IsNotDelay = true then add64 SM.uptimeFailable (sub64 now SM.lasttime)
              else SM.uptimeFailable
            uptime := add64 SM.uptime (sub64 now SM.lasttime)
            lasttime := now
            heartbeats := add64 SM.heartbeats 1 }) := by
  obtain ⟨c, o, d, lt, ft, u, uf, us, ls, hb, avg, inf, mu⟩ := SM
  simp only at hmu hold
  subst hmu hold
  cases h : rangeFindsError old <;> cases IsSemiSynced <;> cases IsNotDelay <;>
    simp [SetMasterUpAndSync, IsFailable, Lock, Unlock, h]

theorem Map.get_eq_none_iff (m : Map) (key : String) :
    Map.get m key = none ↔ key ∉ Map.keys m := by
  induction m with
  | nil => simp [Map.get, Map.keys]
  | cons e rest ih =>
    obtain ⟨k, v⟩ := e
    by_cases h : k = key
    · simp [Map.get, Map.keys, h]
    · have h2 : ¬ key = k := fun h3 => h h3.symm
      simpa [Map.get, Map.keys, h, h2] using ih

theorem Map.Search_iff (m : Map) (key : String) :
    Map.Search m key = true ↔ key ∈ Map.keys m := by
  unfold Map.Search
  cases h : Map.get m key with
  | none => simpa using (Map.get_eq_none_iff m key).1 h
  | some v =>
    have h2 : ¬ Map.get m key = none := by simp [h]
    simpa using (not_iff_not.2 (Map.get_eq_none_iff m key)).1 h2

theorem Map.Search_eq_false_iff (m : Map) (key : String) :
    Map.Search m key = false ↔ key ∉ Map.keys m := by
  rw [← Map.Search_iff]; simp

theorem Map.get_of_mem (m : Map) (hwf : Map.WF m) (key : String) (v : State)
    (hmem : (key, v) ∈ m) : Map.get m key = some v := by
  induction m with
  | nil => simp at hmem
  | cons e rest ih =>
    obtain ⟨k, w⟩ := e
    have hnd : k ∉ Map.keys rest ∧ Map.WF rest := by
      simpa [Map.WF, Map.keys] using hwf
    rcases List.mem_cons.1 hmem with h | h
    · cases h; simp [Map.get]
    · have hk : k ≠ key := by
        intro hk
        apply hnd.1
        rw [hk]
        exact List.mem_map_of_mem Prod.fst h
      simp [Map.get, hk, ih hnd.2 h]

theorem Map.mem_of_get (m : Map) (key : String) (v : State)
    (hget : Map.get m key = some v) : (key, v) ∈ m := by
  induction m with
  | nil => simp [Map.get] at hget
  | cons e rest ih =>
    obtain ⟨k, w⟩ := e
    by_cases h : k = key
    · simp [Map.get, h] at hget
      simp [h, hget]
    · simp [Map.get, h] at hget
      exact List.mem_cons_of_mem _ (ih hget)

theorem Map.delete_of_get_none (m : Map) (key : String) (h : Map.get m key = none) :
    Map.delete m key = m := by
  have hk := (Map.get_eq_none_iff m key).1 h
  unfold Map.delete
  rw [List.filter_eq_self]
  intro e he
  have : e.1 ≠ key := by
    intro heq
    apply hk
    rw [← heq]
    exact List.mem_map_of_mem Prod.fst he
  simpa using this

theorem Map.get_append (m n : Map) (key : String) :
    Map.get (m ++ n) key =
      match Map.get m key with
      | some v => some v
      | none => Map.get n key := by
  induction m with
  | nil => simp [Map.get]
  | cons e rest ih =>
    obtain ⟨k, w⟩ := e
    by_cases h : k = key
    · simp [Map.get, h]
    · simpa [Map.get, h] using ih

theorem Map.Add_of_absent (m : Map) (key : String) (s : State) (h : Map.get m key = none) :
    Map.Add m key s = m ++ [(key, s)] := by
  simp [Map.Add, h, Map.set, Map.delete_of_get_none m key h]

theorem Map.Add_of_present (m : Map) (key : String) (s v : State)
    (h : Map.get m key = some v) : Map.Add m key s = m := by
  simp [Map.Add, h]

theorem Map.WF_delete (m : Map) (key : String) (hwf : Map.WF m) :
    Map.WF (Map.delete m key) := by
  unfold Map.WF Map.keys Map.delete at *
  exact (List.Nodup.sublist (List.Sublist.map _ (List.filter_sublist _)) hwf)

theorem Map.WF_Add (m : Map) (key : String) (s : State) (hwf : Map.WF m) :
    Map.WF (Map.Add m key s) := by
  cases h : Map.get m key with
  | some v => rw [Map.Add_of_present m key s v h]; exact hwf
  | none =>
    rw [Map.Add_of_absent m key s h]
    have hk := (Map.get_eq_none_iff m key).1 h
    unfold Map.WF Map.keys at *
    rw [List.map_append, List.nodup_append]
    refine ⟨hwf, by simp, ?_⟩
    intro a ha hb
    simp at hb
    subst hb
    exact hk ha

theorem closingPass_eq (cur : Map) (es : List (String × State)) (log : List String) :
    closingPass cur es log =
      log ++ (es.filter fun e => !Map.Search cur e.1).map
        fun e => e.1 ++ " CLOSING " ++ e.2.ErrDesc := by
  induction es generalizing log with
  | nil => simp [closingPass]
  | cons e rest ih =>
    obtain ⟨k, v⟩ := e
    cases h : Map.Search cur k <;> simp [closingPass, h, ih]

theorem openingPass_eq (old : Map) (es : List (String × State)) (log : List String) :
    openingPass old es log =
      log ++ (es.filter fun e => !Map.Search old e.1).map
        fun e => e.1 ++ " " ++ e.2.ErrDesc := by
  induction es generalizing log with
  | nil => simp [openingPass]
  | cons e rest ih =>
    obtain ⟨k, v⟩ := e
    cases h : Map.Search old k <;> simp [openingPass, h, ih]

theorem openErrorsPass_eq (es : List (String × State)) (log : List StateHttp) :
    openErrorsPass es log =
      log ++ (es.filter fun e => decide (e.2.ErrType = "ERROR")).map
        fun e => { ErrNumber := e.1, ErrDesc := e.2.ErrDesc, ErrFrom := e.2.ErrFrom } := by
  induction es generalizing log with
  | nil => simp [openErrorsPass]
  | cons e rest ih =>
    obtain ⟨k, v⟩ := e
    by_cases h : v.ErrType = "ERROR" <;> simp [openErrorsPass, h, ih]

theorem openWarningsPass_eq (es : List (String × State)) (log : List StateHttp) :
    openWarningsPass es log =
      log ++ (es.filter fun e => !decide (e.2.ErrType = "ERROR")).map
        fun e => { ErrNumber := e.1, ErrDesc := e.2.ErrDesc, ErrFrom := e.2.ErrFrom } := by
  induction es generalizing log with
  | nil => simp [openWarningsPass]
  | cons e rest ih =>
    obtain ⟨k, v⟩ := e
    by_cases h : v.ErrType = "ERROR" <;> simp [openWarningsPass, h, ih]

/-- Keys of the entries of `m` that `n` lacks: duplicate-free, and exactly the keys
of `m` that are not keys of `n`; each entry is the one `Map.get` finds. -/
theorem Map.absent_keys (m n : Map) (hwf : Map.WF m) :
    ((m.filter fun e => !Map.Search n e.1).map Prod.fst).Nodup ∧
      (∀ k, k ∈ (m.filter fun e => !Map.Search n e.1).map Prod.fst ↔
        k ∈ Map.keys m ∧ k ∉ Map.keys n) ∧
      ∀ e ∈ m.filter fun e => !Map.Search n e.1, Map.get m e.1 = some e.2 := by
  refine ⟨?_, ?_, ?_⟩
  · exact List.Nodup.sublist (List.Sublist.map _ (List.filter_sublist _)) hwf
  · intro k
    simp only [List.mem_map, List.mem_filter, Map.keys, Bool.not_eq_true',
      Map.Search_eq_false_iff]
    constructor
    · rintro ⟨e, ⟨he, hn⟩, rfl⟩
      exact ⟨⟨e, he, rfl⟩, hn⟩
    · rintro ⟨⟨e, he, rfl⟩, hn⟩
      exact ⟨e, ⟨he, hn⟩, rfl⟩
  · intro e he
    exact Map.get_of_mem m hwf e.1 e.2 (List.mem_filter.1 he).1

theorem card_of_keys (ks a b : List String) (hnd : ks.Nodup)
    (hmem : ∀ k, k ∈ ks ↔ k ∈ a ∧ k ∉ b) :
    ks.length = (a.toFinset \ b.toFinset).card := by
  rw [← List.toFinset_card_of_nodup hnd]
  congr 1
  ext k
  simp [hmem k]

theorem roundHalfEven_sub_le (q : ℚ) : |(roundHalfEven q : ℚ) - q| ≤ 1 / 2 := by
  have h1 : (⌊q⌋ : ℚ) ≤ q := Int.floor_le q
  have h2 : q < ⌊q⌋ + 1 := Int.lt_floor_add_one q
  unfold roundHalfEven
  rw [abs_le]
  split_ifs with ha hb hc
  · constructor <;> linarith
  · push_cast; constructor <;> linarith
  · constructor <;> linarith
  · push_cast; constructor <;> linarith

theorem roundHalfEven_eq_of_near (q : ℚ) (n : ℤ) (h : |q - n| < 1 / 2) :
    roundHalfEven q = n := by
  rw [abs_lt] at h
  obtain ⟨h1, h2⟩ := h
  by_cases hq : (n : ℚ) ≤ q
  · have hf : ⌊q⌋ = n := Int.floor_eq_iff.2 ⟨hq, by linarith⟩
    unfold roundHalfEven
    rw [hf, if_pos (by linarith)]
  · have hf : ⌊q⌋ = n - 1 := Int.floor_eq_iff.2 ⟨by push_cast; linarith, by push_cast; linarith⟩
    unfold roundHalfEven
    rw [hf, if_neg (by push_cast; linarith), if_pos (by push_cast; linarith)]
    ring

theorem roundBinary64_near (a : ℚ) (ha : 0 < a) :
    |roundBinary64 a - a| ≤ a / 2 ^ 53 := by
  have hlog : (2 : ℚ) ^ Int.log 2 a ≤ a := Int.zpow_log_le_self (by norm_num) ha
  have hulp : (0 : ℚ) < 2 ^ (Int.log 2 a - 52) := zpow_pos (by norm_num) _
  have hsplit : (2 : ℚ) ^ (Int.log 2 a - 52) = 2 ^ Int.log 2 a / 2 ^ 52 := by
    rw [zpow_sub₀ (by norm_num)]; norm_cast
  have hr := roundHalfEven_sub_le (a / 2 ^ (Int.log 2 a - 52))
  have hmul : |roundBinary64 a - a| =
      |(roundHalfEven (a / 2 ^ (Int.log 2 a - 52)) : ℚ) - a / 2 ^ (Int.log 2 a - 52)| *
        2 ^ (Int.log 2 a - 52) := by
    rw [← abs_of_pos hulp, ← abs_mul, abs_of_pos hulp]
    unfold roundBinary64
    congr 1
    field_simp
  rw [hmul]
  calc |(roundHalfEven (a / 2 ^ (Int.log 2 a - 52)) : ℚ) - a / 2 ^ (Int.log 2 a - 52)| *
        2 ^ (Int.log 2 a - 52)
      ≤ 1 / 2 * 2 ^ (Int.log 2 a - 52) := mul_le_mul_of_nonneg_right hr hulp.le
    _ = 2 ^ Int.log 2 a / 2 ^ 53 := by rw [hsplit]; ring
    _ ≤ a / 2 ^ 53 := by gcongr


theorem roundBinary64_pos (a : ℚ) (ha : 0 < a) : 0 < roundBinary64 a := by
  have h := (abs_le.1 (roundBinary64_near a ha)).1
  have h2 : a / 2 ^ 53 < a := div_lt_self ha (by norm_num)
  linarith

theorem quotient_near_hundred (f : ℚ) (hf : 0 < f) :
    |roundBinary64 (roundBinary64 (100 * f) / f) - 100| < 1 / 200000 := by
  have hg := abs_le.1 (roundBinary64_near (100 * f) (by positivity))
  have hgpos : 0 < roundBinary64 (100 * f) := roundBinary64_pos _ (by positivity)
  have hrpos : 0 < roundBinary64 (100 * f) / f := div_pos hgpos hf
  have hr1 : 100 - 100 / 2 ^ 53 ≤ roundBinary64 (100 * f) / f := by
    rw [le_div_iff₀ hf]
    have : (100 - 100 / 2 ^ 53) * f = 100 * f - 100 * f / 2 ^ 53 := by ring
    linarith [hg.1]
  have hr2 : roundBinary64 (100 * f) / f ≤ 100 + 100 / 2 ^ 53 := by
    rw [div_le_iff₀ hf]
    have : (100 + 100 / 2 ^ 53) * f = 100 * f + 100 * f / 2 ^ 53 := by ring
    linarith [hg.2]
  have hq := abs_le.1 (roundBinary64_near _ hrpos)
  have hb : roundBinary64 (100 * f) / f / 2 ^ 53 ≤ (100 + 100 / 2 ^ 53) / 2 ^ 53 := by
    gcongr
  rw [abs_lt]
  constructor
  · have : (100 : ℚ) / 2 ^ 53 + (100 + 100 / 2 ^ 53) / 2 ^ 53 < 1 / 200000 := by norm_num
    linarith [hq.1]
  · have : (100 : ℚ) / 2 ^ 53 + (100 + 100 / 2 ^ 53) / 2 ^ 53 < 1 / 200000 := by norm_num
    linarith [hq.2]

theorem FormatFloat5_near_hundred (q : ℚ) (h : |q - 100| < 1 / 200000) :
    FormatFloat5 (Float64.fin false q) = "100.00000" := by
  have hn : roundHalfEven (q * 100000) = 10000000 := by
    apply roundHalfEven_eq_of_near
    rw [abs_lt] at h ⊢
    push_cast
    constructor <;> linarith [h.1, h.2]
  simp only [FormatFloat5, hn]
  decide

theorem Float64.ofInt64_pos (u : Int) (hu : 0 < u) :
    Float64.ofInt64 u = Float64.fin false (roundBinary64 (u : ℚ)) := by
  have habs : ((u.natAbs : ℕ) : ℚ) = (u : ℚ) := by
    rw [Nat.cast_natAbs, abs_of_pos hu]
  unfold Float64.ofInt64
  rw [if_neg (ne_of_gt hu), habs]
  simp [not_lt.2 hu.le]

/-- The float64 computation `100*float64(u)/float64(u)` prints as "100.00000" for
every positive int64 `u`. -/
theorem full_window_prints_hundred (u : Int) (hu : 0 < u) :
    FormatFloat5 (Float64.div (Float64.mul (Float64.fin false 100) (Float64.ofInt64 u))
      (Float64.ofInt64 u)) = "100.00000" := by
  have hupos : (0 : ℚ) < (u : ℚ) := by exact_mod_cast hu
  have hf : 0 < roundBinary64 (u : ℚ) := roundBinary64_pos _ hupos
  have hg : 0 < roundBinary64 (100 * roundBinary64 (u : ℚ)) :=
    roundBinary64_pos _ (by positivity)
  have hmul : Float64.mul (Float64.fin false 100) (Float64.fin false (roundBinary64 (u : ℚ))) =
      Float64.fin false (roundBinary64 (100 * roundBinary64 (u : ℚ))) := by
    simp [Float64.mul, hf.ne']
  have hdiv : Float64.div (Float64.fin false (roundBinary64 (100 * roundBinary64 (u : ℚ))))
      (Float64.fin false (roundBinary64 (u : ℚ))) =
      Float64.fin false
        (roundBinary64 (roundBinary64 (100 * roundBinary64 (u : ℚ)) / roundBinary64 (u : ℚ))) := by
    simp [Float64.div, hf.ne', hg.ne']
  rw [Float64.ofInt64_pos u hu, hmul, hdiv]
  exact FormatFloat5_near_hundred _ (quotient_near_hundred _ hf)

/-! ## The uptime tick -/

/-- C1 (healthy tick).  When the mutex is free and `OldState` holds no record of
type "ERROR", `SetMasterUpAndSync` returns, and with `elapsed = now - lasttime`
(int64 arithmetic) it adds `elapsed` to `uptime`, to `uptimeSemisync` when
`IsSemiSynced`, to `uptimeFailable` when `IsNotDelay`, sets `lasttime` to `now`
and increments `heartbeats`. -/
theorem SetMasterUpAndSync_healthy (SM : StateMachine) (old : Map) (now : Int)
    (IsSemiSynced IsNotDelay : Bool) (hmu : SM.mu = false) (hold : SM.OldState = some old)
    (hok : ∀ e ∈ old, e.2.ErrType ≠ "ERROR") :
    ∃ SM', SetMasterUpAndSync SM now IsSemiSynced IsNotDelay = some SM' ∧
      SM'.uptime = add64 SM.uptime (sub64 now SM.lasttime) ∧
      SM'.uptimeSemisync =
        (if IsSemiSynced = true then add64 SM.uptimeSemisync (sub64 now SM.lasttime)
          else SM.uptimeSemisync) ∧
      SM'.uptimeFailable =
        (if IsNotDelay = true then add64 SM.uptimeFailable (sub64 now SM.lasttime)
          else SM.uptimeFailable) ∧
      SM'.lasttime = now ∧
      SM'.heartbeats = add64 SM.heartbeats 1 := by
  have hfalse : rangeFindsError old = false := rangeFindsError_eq_false old hok
  refine ⟨_, SetMasterUpAndSync_eq SM old now IsSemiSynced IsNotDelay hmu hold, ?_⟩
  simp [hfalse]

/-- Scenario of C1: first tick ten seconds after `Init`, nothing observed yet. -/
theorem SetMasterUpAndSync_healthy_witness :
    ∃ SM', SetMasterUpAndSync (Init zeroValue 1500000000) 1500000010 true true = some SM' ∧
      SM'.uptime = 10 ∧ SM'.uptimeSemisync = 10 ∧ SM'.uptimeFailable = 10 ∧
      SM'.lasttime = 1500000010 ∧ SM'.heartbeats = 1 := by
  obtain ⟨SM', h, h1, h2, h3, h4, h5⟩ :=
    SetMasterUpAndSync_healthy (Init zeroValue 1500000000) [] 1500000010 true true rfl rfl
      (by simp)
  refine ⟨SM', h, ?_, ?_, ?_, h4, ?_⟩
  · rw [h1]; decide
  · rw [h2]; decide
  · rw [h3]; decide
  · rw [h5]; decide

/-- C2 (unhealthy tick).  When the mutex is free and `OldState` holds a record of
type "ERROR", `SetMasterUpAndSync` returns and leaves `uptime`, `uptimeFailable`
and `uptimeSemisync` at their prior values, while `lasttime` becomes `now` and
`heartbeats` is incremented. -/
theorem SetMasterUpAndSync_unhealthy (SM : StateMachine) (old : Map) (now : Int)
    (IsSemiSynced IsNotDelay : Bool) (hmu : SM.mu = false) (hold : SM.OldState = some old)
    (herr : ∃ e ∈ old, e.2.ErrType = "ERROR") :
    ∃ SM', SetMasterUpAndSync SM now IsSemiSynced IsNotDelay = some SM' ∧
      SM'.uptime = SM.uptime ∧
      SM'.uptimeFailable = SM.uptimeFailable ∧
      SM'.uptimeSemisync = SM.uptimeSemisync ∧
      SM'.lasttime = now ∧
      SM'.heartbeats = add64 SM.heartbeats 1 := by
  have htrue : rangeFindsError old = true := (rangeFindsError_iff old).2 herr
  refine ⟨_, SetMasterUpAndSync_eq SM old now IsSemiSynced IsNotDelay hmu hold, ?_⟩
  simp [htrue]

/-- Scenario of C2: after the healthy tick an "ERROR" record is added and rotated
into `OldState`; the tick ten seconds later credits nothing. -/
theorem SetMasterUpAndSync_unhealthy_witness :
    ((SetMasterUpAndSync (Init zeroValue 1500000000) 1500000010 true true).bind
        fun S1 => (AddState S1 "ERR00012" ⟨"ERROR", "Could not find a master", "TOPO"⟩).bind
          ClearState) = some tickedThenFailed ∧
    ∃ S4, SetMasterUpAndSync tickedThenFailed 1500000020 true true = some S4 ∧
      S4.uptime = 10 ∧ S4.uptimeFailable = 10 ∧ S4.uptimeSemisync = 10 ∧
      S4.lasttime = 1500000020 ∧ S4.heartbeats = 2 := by
  obtain ⟨S4, h, h1, h2, h3, h4, h5⟩ :=
    SetMasterUpAndSync_unhealthy tickedThenFailed
      [("ERR00012", ⟨"ERROR", "Could not find a master", "TOPO"⟩)] 1500000020 true true
      rfl rfl ⟨_, List.mem_singleton.2 rfl, rfl⟩
  refine ⟨by decide, S4, h, h1, h2, h3, h4, ?_⟩
  rw [h5]; decide

/-! ## Rotation and the health gates -/

/-- C3 (rotation).  With the mutex free, `ClearState` returns; afterwards
`OldState` is exactly what `CurState` was, `CurState` is a fresh empty map, and
every other field is as before. -/
theorem ClearState_rotates (SM : StateMachine) (hmu : SM.mu = false) :
    ∃ SM', ClearState SM = some SM' ∧
      SM'.OldState = SM.CurState ∧ SM'.CurState = some [] ∧
      SM' = { SM with OldState := SM'.OldState, CurState := SM'.CurState } := by
  obtain ⟨c, o, d, lt, ft, u, uf, us, ls, hb, avg, inf, mu⟩ := SM
  simp only at hmu
  subst hmu
  simp [ClearState, Lock, Unlock, NewMap]

/-- Scenario of C3: rotation of `midCycle`; the records under B and C move to `OldState`. -/
theorem ClearState_rotates_witness :
    ∃ SM', ClearState midCycle = some SM' ∧
      SM'.OldState = some [("B", ⟨"WARNING", "b is slow again", "REPL"⟩),
        ("C", ⟨"ERROR", "c is down", "TOPO"⟩)] ∧
      SM'.CurState = some [] ∧
      SM' = { midCycle with OldState := SM'.OldState, CurState := SM'.CurState } :=
  ClearState_rotates midCycle rfl

/-- C4 (health gate on current).  For an initialised aggregate with the mutex
free, `CanMonitor` returns; it returns false exactly when some record of
`CurState` has type "ERROR"; on true `discovered` is set, on false it is
unchanged; no other field changes. -/
theorem CanMonitor_gate (SM : StateMachine) (cur : Map) (hmu : SM.mu = false)
    (hcur : SM.CurState = some cur) :
    ∃ b SM', CanMonitor SM = some (b, SM') ∧
      (b = false ↔ ∃ e ∈ cur, e.2.ErrType = "ERROR") ∧
      (b = true → SM'.discovered = true) ∧
      (b = false → SM'.discovered = SM.discovered) ∧
      SM' = { SM with discovered := SM'.discovered } := by
  refine ⟨_, _, CanMonitor_eq SM cur hmu hcur, ?_, ?_, ?_, ?_⟩
  · rw [← rangeFindsError_iff]; simp
  · intro h; simp at h; simp [h]
  · intro h; simp at h; simp [h]
  · rfl

/-- Scenario of C4: `CanMonitor` on `midCycle`, whose `CurState` holds the "ERROR" record C. -/
theorem CanMonitor_gate_witness :
    ∃ SM', CanMonitor midCycle = some (false, SM') ∧ SM'.discovered = false ∧
      SM' = midCycle := by
  obtain ⟨b, SM', h, hiff, -, hf, heq⟩ := CanMonitor_gate midCycle _ rfl rfl
  have hb : b = false := hiff.2 ⟨("C", ⟨"ERROR", "c is down", "TOPO"⟩), by simp, rfl⟩
  subst hb
  have hd : SM'.discovered = false := hf rfl
  refine ⟨SM', h, hd, ?_⟩
  rw [heq, hd]; rfl

/-- C5 (health gate on previous).  For an initialised aggregate with the mutex
free, `IsFailable` returns; it returns false exactly when some record of
`OldState` has type "ERROR"; on true `discovered` is set, on false it is
unchanged; and replacing `CurState` by anything changes neither the answer nor
the effect. -/
theorem IsFailable_gate (SM : StateMachine) (old : Map) (hmu : SM.mu = false)
    (hold : SM.OldState = some old) :
    ∃ b SM', IsFailable SM = some (b, SM') ∧
      (b = false ↔ ∃ e ∈ old, e.2.ErrType = "ERROR") ∧
      (b = true → SM'.discovered = true) ∧
      (b = false → SM'.discovered = SM.discovered) ∧
      ∀ c : Option Map,
        IsFailable { SM with CurState := c } = some (b, { SM' with CurState := c }) := by
  refine ⟨_, _, IsFailable_eq SM old hmu hold, ?_, ?_, ?_, ?_⟩
  · rw [← rangeFindsError_iff]; simp
  · intro h; simp at h; simp [h]
  · intro h; simp at h; simp [h]
  · intro c
    exact IsFailable_eq { SM with CurState := c } old hmu hold

/-- Scenario of C5: `IsFailable` on `midCycle`, whose `OldState` holds the "ERROR" record A, and on
the same aggregate with an empty `CurState`. -/
theorem IsFailable_gate_witness :
    ∃ SM', IsFailable midCycle = some (false, SM') ∧ SM'.discovered = false ∧
      IsFailable { midCycle with CurState := some [] } =
        some (false, { SM' with CurState := some [] }) := by
  obtain ⟨b, SM', h, hiff, -, hf, hc⟩ := IsFailable_gate midCycle _ rfl rfl
  have hb : b = false := hiff.2 ⟨("A", ⟨"ERROR", "a is down", "TOPO"⟩), by simp, rfl⟩
  subst hb
  exact ⟨SM', h, hf rfl, hc (some [])⟩

/-! ## Diff of the two snapshots -/

/-- C6 (diff correctness).  For an initialised aggregate with the mutex free,
`GetStates` returns the closing lines followed by the opening lines.  The
closing lines are, for a duplicate-free enumeration `gone` of exactly the keys
of `OldState` that `CurState` lacks, the lines "key CLOSING desc" with the
description of the record `OldState` holds under the key; the opening lines are,
for a duplicate-free enumeration `fresh` of exactly the keys of `CurState` that
`OldState` lacks, the lines "key desc" with the description of the record
`CurState` holds.  A key of both maps yields no line, and the number of lines is
the size of Old minus Cur plus the size of Cur minus Old. -/
theorem GetStates_diff (SM : StateMachine) (old cur : Map) (hmu : SM.mu = false)
    (hold : SM.OldState = some old) (hcur : SM.CurState = some cur)
    (hwo : Map.WF old) (hwc : Map.WF cur) :
    ∃ gone fresh closing opening : List String,
      GetStates SM = some (closing ++ opening, SM) ∧
      gone.Nodup ∧ (∀ k, k ∈ gone ↔ k ∈ Map.keys old ∧ k ∉ Map.keys cur) ∧
      closing.map some =
        gone.map (fun k => (Map.get old k).map fun v => k ++ " CLOSING " ++ v.ErrDesc) ∧
      fresh.Nodup ∧ (∀ k, k ∈ fresh ↔ k ∈ Map.keys cur ∧ k ∉ Map.keys old) ∧
      opening.map some =
        fresh.map (fun k => (Map.get cur k).map fun v => k ++ " " ++ v.ErrDesc) ∧
      (closing ++ opening).length =
        ((Map.keys old).toFinset \ (Map.keys cur).toFinset).card +
          ((Map.keys cur).toFinset \ (Map.keys old).toFinset).card := by
  obtain ⟨g1, g2, g3⟩ := Map.absent_keys old cur hwo
  obtain ⟨f1, f2, f3⟩ := Map.absent_keys cur old hwc
  refine ⟨(old.filter fun e => !Map.Search cur e.1).map Prod.fst,
    (cur.filter fun e => !Map.Search old e.1).map Prod.fst,
    (old.filter fun e => !Map.Search cur e.1).map fun e => e.1 ++ " CLOSING " ++ e.2.ErrDesc,
    (cur.filter fun e => !Map.Search old e.1).map fun e => e.1 ++ " " ++ e.2.ErrDesc,
    ?_, g1, g2, ?_, f1, f2, ?_, ?_⟩
  · obtain ⟨c, o, d, lt, ft, u, uf, us, ls, hb, avg, inf, mu⟩ := SM
    simp only at hmu hold hcur
    subst hmu hold hcur
    simp [GetStates, Lock, Unlock, closingPass_eq, openingPass_eq]
  · rw [List.map_map, List.map_map]
    apply List.map_congr_left
    intro e he
    simp [g3 e he]
  · rw [List.map_map, List.map_map]
    apply List.map_congr_left
    intro e he
    simp [f3 e he]
  · rw [List.length_append, List.length_map, List.length_map,
      ← card_of_keys _ _ _ g1 g2, ← card_of_keys _ _ _ f1 f2, List.length_map, List.length_map]

/-- Scenario of C6 on `midCycle`: previous holds A and B, current holds B and C
with another record under B; the diff is the closing line of A and the line
of C. -/
theorem GetStates_diff_witness :
    ∃ log, GetStates midCycle = some (log, midCycle) ∧
      log = ["A CLOSING a is down", "C c is down"] ∧
      log.length = ((["A", "B"] : List String).toFinset \ ["B", "C"].toFinset).card +
        ((["B", "C"] : List String).toFinset \ ["A", "B"].toFinset).card := by
  obtain ⟨gone, fresh, closing, opening, h, -, -, -, -, -, -, hlen⟩ :=
    GetStates_diff midCycle _ _ rfl rfl rfl (by decide) (by decide)
  have hd : GetStates midCycle = some (["A CLOSING a is down", "C c is down"], midCycle) := by
    decide
  refine ⟨closing ++ opening, h, ?_, hlen⟩
  rw [hd] at h
  simpa using (congrArg (fun r => r.map Prod.fst) h).symm

/-! ## SLA percentages -/

/-- C7 (percentage clamp).  When the window `lasttime - firsttime` is positive and
the accumulator equals it, `GetUptime` returns "99.99999", and so do
`GetUptimeFailable` for `uptimeFailable` and `GetUptimeSemiSync` for
`uptimeSemisync`; and in no state does any of the three return "100.00000". -/
theorem percent_clamp (SM : StateMachine) :
    (0 < sub64 SM.lasttime SM.firsttime → SM.uptime = sub64 SM.lasttime SM.firsttime →
        GetUptime SM = "99.99999") ∧
      (0 < sub64 SM.lasttime SM.firsttime →
        SM.uptimeFailable = sub64 SM.lasttime SM.firsttime →
        GetUptimeFailable SM = "99.99999") ∧
      (0 < sub64 SM.lasttime SM.firsttime →
        SM.uptimeSemisync = sub64 SM.lasttime SM.firsttime →
        GetUptimeSemiSync SM = "99.99999") ∧
      GetUptime SM ≠ "100.00000" ∧ GetUptimeFailable SM ≠ "100.00000" ∧
      GetUptimeSemiSync SM ≠ "100.00000" := by
  have hne : ("99.99999" : String) ≠ "100.00000" := by decide
  refine ⟨?_, ?_, ?_, ?_, ?_, ?_⟩
  · intro hw hu
    simp only [GetUptime]
    rw [hu, full_window_prints_hundred _ hw]
    simp
  · intro hw hu
    simp only [GetUptimeFailable]
    rw [hu, full_window_prints_hundred _ hw]
    simp
  · intro hw hu
    simp only [GetUptimeSemiSync]
    rw [hu, full_window_prints_hundred _ hw]
    simp
  · simp only [GetUptime]
    split_ifs with h
    · exact hne
    · exact h
  · simp only [GetUptimeFailable]
    split_ifs with h
    · exact hne
    · exact h
  · simp only [GetUptimeSemiSync]
    split_ifs with h
    · exact hne
    · exact h

/-- Scenario of C7: in `tickedThenFailed` the window is 10 seconds and each of the
three accumulators is 10. -/
theorem percent_clamp_witness :
    GetUptime tickedThenFailed = "99.99999" ∧
      GetUptimeFailable tickedThenFailed = "99.99999" ∧
      GetUptimeSemiSync tickedThenFailed = "99.99999" :=
  ⟨(percent_clamp tickedThenFailed).1 (by decide) (by decide),
    (percent_clamp tickedThenFailed).2.1 (by decide) (by decide),
    (percent_clamp tickedThenFailed).2.2.1 (by decide) (by decide)⟩

/-! ## SLA checkpoint -/

/-- C8 (checkpoint round trip).  `SetSla` applied to the result of `GetSla` gives
back the very same aggregate: the four SLA fields keep their values and no
other field changes. -/
theorem SetSla_GetSla (SM : StateMachine) :
    SetSla SM (GetSla SM) = SM ∧
      (SetSla SM (GetSla SM)).firsttime = SM.firsttime ∧
      (SetSla SM (GetSla SM)).uptime = SM.uptime ∧
      (SetSla SM (GetSla SM)).uptimeFailable = SM.uptimeFailable ∧
      (SetSla SM (GetSla SM)).uptimeSemisync = SM.uptimeSemisync := by
  refine ⟨rfl, rfl, rfl, rfl, rfl⟩

/-! ## Projections of the previous snapshot -/

/-- C9 (projection filters).  For an initialised aggregate with the mutex free,
`GetOpenErrors` returns exactly the projections `{key, ErrDesc, ErrFrom}` of the
entries of `OldState` of type "ERROR" and `GetOpenWarnings` exactly those of the
entries of another type, one per key; no key is in both results, together the
keys of the two results are the keys of `OldState`, each once; and replacing
`CurState` changes neither result. -/
theorem open_projections (SM : StateMachine) (old : Map) (hmu : SM.mu = false)
    (hold : SM.OldState = some old) (hwf : Map.WF old) :
    ∃ errs warns : List StateHttp,
      GetOpenErrors SM = some (errs, SM) ∧ GetOpenWarnings SM = some (warns, SM) ∧
      (∀ h, h ∈ errs ↔ ∃ v, Map.get old h.ErrNumber = some v ∧ v.ErrType = "ERROR" ∧
        h.ErrDesc = v.ErrDesc ∧ h.ErrFrom = v.ErrFrom) ∧
      (∀ h, h ∈ warns ↔ ∃ v, Map.get old h.ErrNumber = some v ∧ v.ErrType ≠ "ERROR" ∧
        h.ErrDesc = v.ErrDesc ∧ h.ErrFrom = v.ErrFrom) ∧
      (errs.map StateHttp.ErrNumber).Nodup ∧ (warns.map StateHttp.ErrNumber).Nodup ∧
      (∀ e ∈ errs, ∀ w ∈ warns, e.ErrNumber ≠ w.ErrNumber) ∧
      ((errs ++ warns).map StateHttp.ErrNumber).Perm (Map.keys old) ∧
      ∀ c : Option Map,
        GetOpenErrors { SM with CurState := c } = some (errs, { SM with CurState := c }) ∧
        GetOpenWarnings { SM with CurState := c } = some (warns, { SM with CurState := c }) := by
  have hperm : (((old.filter fun e => decide (e.2.ErrType = "ERROR")).map
        (fun e => ({ ErrNumber := e.1, ErrDesc := e.2.ErrDesc, ErrFrom := e.2.ErrFrom } :
          StateHttp)) ++
      (old.filter fun e => !decide (e.2.ErrType = "ERROR")).map
        (fun e => ({ ErrNumber := e.1, ErrDesc := e.2.ErrDesc, ErrFrom := e.2.ErrFrom } :
          StateHttp))).map StateHttp.ErrNumber).Perm (Map.keys old) := by
    rw [← List.map_append, List.map_map]
    exact (List.filter_append_perm _ old).map _
  have hnd := (List.Perm.nodup_iff hperm).2 hwf
  rw [List.map_append, List.nodup_append] at hnd
  refine ⟨_, _, ?_, ?_, ?_, ?_, hnd.1, hnd.2.1, ?_, hperm, ?_⟩
  · obtain ⟨c, o, d, lt, ft, u, uf, us, ls, hb, avg, inf, mu⟩ := SM
    simp only at hmu hold
    subst hmu hold
    simp [GetOpenErrors, Lock, Unlock, openErrorsPass_eq]
  · obtain ⟨c, o, d, lt, ft, u, uf, us, ls, hb, avg, inf, mu⟩ := SM
    simp only at hmu hold
    subst hmu hold
    simp [GetOpenWarnings, Lock, Unlock, openWarningsPass_eq]
  · intro h
    simp only [List.mem_map, List.mem_filter, decide_eq_true_eq]
    constructor
    · rintro ⟨e, ⟨he, herr⟩, rfl⟩
      exact ⟨e.2, Map.get_of_mem old hwf e.1 e.2 he, herr, rfl, rfl⟩
    · rintro ⟨v, hget, herr, hd, hf⟩
      refine ⟨(h.ErrNumber, v), ⟨Map.mem_of_get old _ v hget, herr⟩, ?_⟩
      cases h
      simp_all
  · intro h
    simp only [List.mem_map, List.mem_filter, Bool.not_eq_true', decide_eq_false_iff_not]
    constructor
    · rintro ⟨e, ⟨he, herr⟩, rfl⟩
      exact ⟨e.2, Map.get_of_mem old hwf e.1 e.2 he, herr, rfl, rfl⟩
    · rintro ⟨v, hget, herr, hd, hf⟩
      refine ⟨(h.ErrNumber, v), ⟨Map.mem_of_get old _ v hget, herr⟩, ?_⟩
      cases h
      simp_all
  · intro e he w hw heq
    exact hnd.2.2 (List.mem_map_of_mem _ he) (heq ▸ List.mem_map_of_mem _ hw)
  · intro c
    obtain ⟨c0, o, d, lt, ft, u, uf, us, ls, hb, avg, inf, mu⟩ := SM
    simp only at hmu hold
    subst hmu hold
    simp [GetOpenErrors, GetOpenWarnings, Lock, Unlock, openErrorsPass_eq, openWarningsPass_eq]

/-- Scenario of C9 on `midCycle`, whose `OldState` holds the "ERROR" record A and
the "WARNING" record B. -/
theorem open_projections_witness :
    ∃ errs warns : List StateHttp,
      GetOpenErrors midCycle = some (errs, midCycle) ∧
      GetOpenWarnings midCycle = some (warns, midCycle) ∧
      errs = [⟨"A", "a is down", "TOPO"⟩] ∧ warns = [⟨"B", "b is slow", "REPL"⟩] := by
  obtain ⟨errs, warns, he, hw, -⟩ := open_projections midCycle _ rfl rfl (by decide)
  have hde : GetOpenErrors midCycle = some ([⟨"A", "a is down", "TOPO"⟩], midCycle) := by
    decide
  have hdw : GetOpenWarnings midCycle = some ([⟨"B", "b is slow", "REPL"⟩], midCycle) := by
    decide
  refine ⟨errs, warns, he, hw, ?_, ?_⟩
  · rw [hde] at he
    simpa using (congrArg (fun r => r.map Prod.fst) he).symm
  · rw [hdw] at hw
    simpa using (congrArg (fun r => r.map Prod.fst) hw).symm

/-! ## Condition sets -/

/-- Insert-if-absent on a made map: after `Add key s1` the record under `key` is
the one that was there before, or `s1` when there was none; a second
`Add key s2` leaves the map as the first one made it; `Search key` is true after
either call; and the entry of every other key is the one the map had at the
start. -/
theorem Map.Add_twice (m : Map) (key : String) (s1 s2 : State) :
    Map.get (Map.Add m key s1) key =
        some (match Map.get m key with
          | some v => v
          | none => s1) ∧
      Map.Add (Map.Add m key s1) key s2 = Map.Add m key s1 ∧
      Map.get (Map.Add (Map.Add m key s1) key s2) key = Map.get (Map.Add m key s1) key ∧
      Map.Search (Map.Add m key s1) key = true ∧
      Map.Search (Map.Add (Map.Add m key s1) key s2) key = true ∧
      ∀ other : String, other ≠ key →
        Map.get (Map.Add m key s1) other = Map.get m other ∧
        Map.get (Map.Add (Map.Add m key s1) key s2) other = Map.get m other := by
  have h1 : Map.get (Map.Add m key s1) key =
      some (match Map.get m key with
        | some v => v
        | none => s1) := by
    cases h : Map.get m key with
    | some v => rw [Map.Add_of_present m key s1 v h]; simp [h]
    | none => rw [Map.Add_of_absent m key s1 h, Map.get_append]; simp [h, Map.get]
  have h2 : Map.Add (Map.Add m key s1) key s2 = Map.Add m key s1 :=
    Map.Add_of_present _ key s2 _ h1
  have h3 : ∀ other : String, other ≠ key →
      Map.get (Map.Add m key s1) other = Map.get m other := by
    intro other hne
    cases h : Map.get m key with
    | some v => rw [Map.Add_of_present m key s1 v h]
    | none =>
      rw [Map.Add_of_absent m key s1 h, Map.get_append]
      have hne2 : ¬ key = other := fun h4 => hne h4.symm
      cases Map.get m other <;> simp [Map.get, hne2]
  refine ⟨h1, h2, by rw [h2], ?_, ?_, ?_⟩
  · simp [Map.Search, h1]
  · rw [h2]; simp [Map.Search, h1]
  · intro other hne
    exact ⟨h3 other hne, by rw [h2]; exact h3 other hne⟩

theorem MapValue.Add_made (made : Map) (key : String) (s : State) :
    MapValue.Add (some made) key s = some (some (Map.Add made key s)) := by
  cases h : Map.get made key <;>
    simp [MapValue.Add, MapValue.get, MapValue.set, Map.Add, h]

/-- C10, as stated, fails: on the nil map, the zero value of type `Map`, the
lookup of `Add` finds no entry and the assignment `m[key] = s` panics, so the
first `Add` does not return; no record is stored and `Search` is never true. -/
theorem MapValue.Add_nil_panics :
    MapValue.Search none "C" = false ∧
      MapValue.Add none "C" ⟨"ERROR", "c is down", "TOPO"⟩ = none := by
  decide

/-- C10, amended (insert-if-absent on a made map).  For every map `made` made by
`make`, key and records `s1`, `s2`: `Add key s1` returns a map `m1`, and
`Add key s2` on `m1` returns `m1` again; the record `m1` stores under `key` is
the one `made` stored there, or `s1` when it stored none; `Search key` is true
on `m1`, hence after either call; and under every other key `m1` stores what
`made` stored. -/
theorem MapValue.Add_twice_made (made : Map) (key : String) (s1 s2 : State) :
    ∃ m1 : Map,
      MapValue.Add (some made) key s1 = some (some m1) ∧
      MapValue.Add (some m1) key s2 = some (some m1) ∧
      MapValue.get (some m1) key =
        some (match MapValue.get (some made) key with
          | some v => v
          | none => s1) ∧
      MapValue.Search (some m1) key = true ∧
      ∀ other : String, other ≠ key →
        MapValue.get (some m1) other = MapValue.get (some made) other := by
  obtain ⟨h1, h2, -, h4, -, h6⟩ := Map.Add_twice made key s1 s2
  refine ⟨Map.Add made key s1, MapValue.Add_made made key s1, ?_, h1, ?_, ?_⟩
  · rw [MapValue.Add_made, h2]
  · simpa [MapValue.Search, MapValue.get, Map.Search] using h4
  · intro other hne
    exact (h6 other hne).1

/-- Scenario of C10, amended: two `Add` calls under key C on the made map that
holds A and B; the first record stays and the entry under A is untouched. -/
theorem MapValue.Add_twice_made_witness :
    ∃ m1 : Map,
      MapValue.Add (some [("A", ⟨"ERROR", "a is down", "TOPO"⟩),
          ("B", ⟨"WARNING", "b is slow", "REPL"⟩)]) "C" ⟨"ERROR", "c is down", "TOPO"⟩ =
        some (some m1) ∧
      MapValue.Add (some m1) "C" ⟨"WARNING", "c is late", "REPL"⟩ = some (some m1) ∧
      MapValue.get (some m1) "C" = some ⟨"ERROR", "c is down", "TOPO"⟩ ∧
      MapValue.Search (some m1) "C" = true ∧
      MapValue.get (some m1) "A" = some ⟨"ERROR", "a is down", "TOPO"⟩ := by
  obtain ⟨m1, h1, h2, h3, h4, h5⟩ :=
    MapValue.Add_twice_made [("A", ⟨"ERROR", "a is down", "TOPO"⟩),
      ("B", ⟨"WARNING", "b is slow", "REPL"⟩)] "C" ⟨"ERROR", "c is down", "TOPO"⟩
      ⟨"WARNING", "c is late", "REPL"⟩
  refine ⟨m1, h1, h2, ?_, h4, ?_⟩
  · rw [h3]; decide
  · rw [h5 "A" (by decide)]; decide

/-! ## Membership in the previous snapshot -/

theorem IsInState_eq (SM : StateMachine) (old : Map) (key : String) (hmu : SM.mu = false)
    (hold : SM.OldState = some old) :
    IsInState SM key = some (Map.Search old key, SM) := by
  obtain ⟨c, o, d, lt, ft, u, uf, us, ls, hb, avg, inf, mu⟩ := SM
  simp only at hmu hold
  subst hmu hold
  cases h : Map.Search old key <;> simp [IsInState, Lock, Unlock, h]

theorem AddState_eq (SM : StateMachine) (cur : Map) (key : String) (s : State)
    (hmu : SM.mu = false) (hcur : SM.CurState = some cur) :
    AddState SM key s = some { SM with CurState := some (Map.Add cur key s) } := by
  obtain ⟨c, o, d, lt, ft, u, uf, us, ls, hb, avg, inf, mu⟩ := SM
  simp only at hmu hcur
  subst hmu hcur
  simp [AddState, Lock, Unlock]

theorem DeleteState_eq (SM : StateMachine) (cur : Map) (key : String)
    (hmu : SM.mu = false) (hcur : SM.CurState = some cur) :
    DeleteState SM key = some { SM with CurState := some (Map.Delete cur key) } := by
  obtain ⟨c, o, d, lt, ft, u, uf, us, ls, hb, avg, inf, mu⟩ := SM
  simp only at hmu hcur
  subst hmu hcur
  simp [DeleteState, Lock, Unlock]

theorem ClearState_eq (SM : StateMachine) (hmu : SM.mu = false) :
    ClearState SM = some { SM with OldState := SM.CurState, CurState := some [] } := by
  obtain ⟨c, o, d, lt, ft, u, uf, us, ls, hb, avg, inf, mu⟩ := SM
  simp only at hmu
  subst hmu
  simp [ClearState, Lock, Unlock, NewMap]

theorem Map.Search_Add_self (m : Map) (key : String) (s : State) :
    Map.Search (Map.Add m key s) key = true := by
  cases h : Map.get m key with
  | some v => rw [Map.Add_of_present m key s v h]; simp [Map.Search, h]
  | none =>
    rw [Map.Add_of_absent m key s h]
    simp [Map.Search, Map.get_append, h, Map.get]

/-- C11 (membership is tested against previous).  For an initialised aggregate
with the mutex free, `IsInState key` returns true exactly when `key` is a key of
`OldState`; after `AddState key s`, and likewise after `DeleteState key`, it
returns the same answer as before; and after `AddState key s` followed by
`ClearState` it returns true. -/
theorem IsInState_previous (SM : StateMachine) (old cur : Map) (key : String) (s : State)
    (hmu : SM.mu = false) (hold : SM.OldState = some old) (hcur : SM.CurState = some cur) :
    ∃ b S1 S2 S3,
      IsInState SM key = some (b, SM) ∧ (b = true ↔ key ∈ Map.keys old) ∧
      AddState SM key s = some S1 ∧ IsInState S1 key = some (b, S1) ∧
      DeleteState SM key = some S2 ∧ IsInState S2 key = some (b, S2) ∧
      ClearState S1 = some S3 ∧ IsInState S3 key = some (true, S3) := by
  refine ⟨Map.Search old key, _, _, _, IsInState_eq SM old key hmu hold,
    Map.Search_iff old key, AddState_eq SM cur key s hmu hcur, ?_,
    DeleteState_eq SM cur key hmu hcur, ?_, ClearState_eq _ hmu, ?_⟩
  · exact IsInState_eq _ old key hmu hold
  · exact IsInState_eq _ old key hmu hold
  · have h := IsInState_eq
      { SM with OldState := some (Map.Add cur key s), CurState := some [] }
      (Map.Add cur key s) key hmu rfl
    rw [Map.Search_Add_self] at h
    exact h

/-- Scenario of C11 on `midCycle` with the new key D: absent before and after
`AddState`, present once `ClearState` has rotated it into `OldState`. -/
theorem IsInState_previous_witness :
    ∃ S1 S3,
      IsInState midCycle "D" = some (false, midCycle) ∧
      AddState midCycle "D" ⟨"ERROR", "d is down", "TOPO"⟩ = some S1 ∧
      IsInState S1 "D" = some (false, S1) ∧
      ClearState S1 = some S3 ∧ IsInState S3 "D" = some (true, S3) := by
  obtain ⟨b, S1, S2, S3, h0, hiff, h1, h2, -, -, h3, h4⟩ :=
    IsInState_previous midCycle _ _ "D" ⟨"ERROR", "d is down", "TOPO"⟩ rfl rfl rfl
  have hb : b = false := by
    cases b
    · rfl
    · exact absurd (hiff.1 rfl) (by decide)
  subst hb
  exact ⟨S1, S3, h0, h1, h2, h3, h4⟩

/-! ## Monotonicity of the accumulators -/

/-- C12, as stated, fails: when the wall clock read by the tick is behind
`lasttime` (here 5 seconds after a tick at 1500000010 the clock reads
1500000005), a healthy tick lowers all three accumulators from 10 to 5. -/
theorem SetMasterUpAndSync_clock_stepped_back :
    SetMasterUpAndSync (Init zeroValue 1500000000) 1500000010 true true = some healthyTicked ∧
    healthyTicked.uptime = 10 ∧ healthyTicked.uptimeFailable = 10 ∧
    healthyTicked.uptimeSemisync = 10 ∧
    ∃ SM', SetMasterUpAndSync healthyTicked 1500000005 true true = some SM' ∧
      SM'.uptime = 5 ∧ SM'.uptimeFailable = 5 ∧ SM'.uptimeSemisync = 5 := by
  refine ⟨by decide, rfl, rfl, rfl, _, SetMasterUpAndSync_eq healthyTicked [] _ _ _ rfl rfl, ?_⟩
  decide

/-- C12, amended.  For an initialised aggregate with the mutex free the tick
returns.  When the clock reading is not behind `lasttime` and neither
`now - lasttime` nor the sum of an accumulator and that difference leaves the
int64 range, the accumulator does not decrease.  For every clock reading, an
accumulator is changed only if `OldState` holds no "ERROR" record, and
`uptimeSemisync` only if moreover `IsSemiSynced`, `uptimeFailable` only if
moreover `IsNotDelay`. -/
theorem SetMasterUpAndSync_monotone (SM : StateMachine) (old : Map) (now : Int)
    (IsSemiSynced IsNotDelay : Bool) (hmu : SM.mu = false) (hold : SM.OldState = some old) :
    ∃ SM', SetMasterUpAndSync SM now IsSemiSynced IsNotDelay = some SM' ∧
      (SM.lasttime ≤ now → isInt64 (now - SM.lasttime) →
        isInt64 (SM.uptime + (now - SM.lasttime)) → SM.uptime ≤ SM'.uptime) ∧
      (SM.lasttime ≤ now → isInt64 (now - SM.lasttime) →
        isInt64 (SM.uptimeFailable + (now - SM.lasttime)) →
        SM.uptimeFailable ≤ SM'.uptimeFailable) ∧
      (SM.lasttime ≤ now → isInt64 (now - SM.lasttime) →
        isInt64 (SM.uptimeSemisync + (now - SM.lasttime)) →
        SM.uptimeSemisync ≤ SM'.uptimeSemisync) ∧
      (SM'.uptime ≠ SM.uptime → ∀ e ∈ old, e.2.ErrType ≠ "ERROR") ∧
      (SM'.uptimeSemisync ≠ SM.uptimeSemisync →
        (∀ e ∈ old, e.2.ErrType ≠ "ERROR") ∧ IsSemiSynced = true) ∧
      (SM'.uptimeFailable ≠ SM.uptimeFailable →
        (∀ e ∈ old, e.2.ErrType ≠ "ERROR") ∧ IsNotDelay = true) := by
  refine ⟨_, SetMasterUpAndSync_eq SM old now IsSemiSynced IsNotDelay hmu hold, ?_⟩
  cases herr : rangeFindsError old with
  | true => simp
  | false =>
    have hok : ∀ e ∈ old, e.2.ErrType ≠ "ERROR" := by
      intro e he h
      have := (rangeFindsError_iff old).2 ⟨e, he, h⟩
      rw [herr] at this
      exact Bool.noConfusion this
    have hadd : ∀ a : Int, SM.lasttime ≤ now → isInt64 (now - SM.lasttime) →
        isInt64 (a + (now - SM.lasttime)) → a ≤ add64 a (sub64 now SM.lasttime) := by
      intro a h1 h2 h3
      unfold add64 sub64
      rw [wrap64_of_isInt64 _ h2, wrap64_of_isInt64 _ h3]
      omega
    refine ⟨?_, ?_, ?_, ?_, ?_, ?_⟩
    · simpa using hadd SM.uptime
    · intro h1 h2 h3
      cases IsNotDelay
      · simp
      · simpa using hadd SM.uptimeFailable h1 h2 h3
    · intro h1 h2 h3
      cases IsSemiSynced
      · simp
      · simpa using hadd SM.uptimeSemisync h1 h2 h3
    · intro _; exact hok
    · intro h
      refine ⟨hok, ?_⟩
      cases IsSemiSynced
      · simp at h
      · rfl
    · intro h
      refine ⟨hok, ?_⟩
      cases IsNotDelay
      · simp at h
      · rfl

/-- Scenario of C12, amended: ten seconds after `healthyTicked` the three
accumulators grow from 10 to 20. -/
theorem SetMasterUpAndSync_monotone_witness :
    ∃ SM', SetMasterUpAndSync healthyTicked 1500000020 true true = some SM' ∧
      healthyTicked.uptime ≤ SM'.uptime ∧
      healthyTicked.uptimeFailable ≤ SM'.uptimeFailable ∧
      healthyTicked.uptimeSemisync ≤ SM'.uptimeSemisync := by
  obtain ⟨SM', h, h1, h2, h3, -⟩ :=
    SetMasterUpAndSync_monotone healthyTicked [] 1500000020 true true rfl rfl
  exact ⟨SM', h, h1 (by decide) (by decide) (by decide), h2 (by decide) (by decide) (by decide),
    h3 (by decide) (by decide) (by decide)⟩

/-! ## Initialisation and reset of the window -/

/-- C13, as stated, fails: `Init` does not assign `inFailover`, so after
`SetFailoverState` a second `Init` leaves the flag set. -/
theorem Init_keeps_inFailover :
    ∃ SM, SetFailoverState (Init zeroValue 1500000000) = some SM ∧
      (Init SM 1500000010).inFailover = true := by
  refine ⟨{ Init zeroValue 1500000000 with inFailover := true }, by decide, rfl⟩

/-- C13, amended.  For every prior state and clock reading `now`, after `Init`
both `CurState` and `OldState` are empty maps, `lasttime` and `firsttime` are
`now`, the three accumulators and `heartbeats` are 0 and `discovered` is false;
`inFailover` has the value it had before the call. -/
theorem Init_zero_state (SM : StateMachine) (now : Int) :
    (Init SM now).CurState = some [] ∧ (Init SM now).OldState = some [] ∧
      (Init SM now).lasttime = now ∧ (Init SM now).firsttime = now ∧
      (Init SM now).uptime = 0 ∧ (Init SM now).uptimeFailable = 0 ∧
      (Init SM now).uptimeSemisync = 0 ∧ (Init SM now).heartbeats = 0 ∧
      (Init SM now).discovered = false ∧
      (Init SM now).inFailover = SM.inFailover :=
  ⟨rfl, rfl, rfl, rfl, rfl, rfl, rfl, rfl, rfl, rfl⟩

/-- C14 (frame of `ResetUpTime`).  For every state and clock reading `now`, after
`ResetUpTime` both `firsttime` and `lasttime` are `now` and the three
accumulators are 0, while `CurState`, `OldState`, `discovered` and `inFailover`
are as before the call. -/
theorem ResetUpTime_frame (SM : StateMachine) (now : Int) :
    (ResetUpTime SM now).firsttime = now ∧ (ResetUpTime SM now).lasttime = now ∧
      (ResetUpTime SM now).uptime = 0 ∧ (ResetUpTime SM now).uptimeFailable = 0 ∧
      (ResetUpTime SM now).uptimeSemisync = 0 ∧
      (ResetUpTime SM now).CurState = SM.CurState ∧
      (ResetUpTime SM now).OldState = SM.OldState ∧
      (ResetUpTime SM now).discovered = SM.discovered ∧
      (ResetUpTime SM now).inFailover = SM.inFailover :=
  ⟨rfl, rfl, rfl, rfl, rfl, rfl, rfl, rfl, rfl⟩

/-! ## Runs: effect of one call -/

theorem SetMasterUpAndSync_returns (SM S : StateMachine) (now : Int) (a b : Bool)
    (h : SetMasterUpAndSync SM now a b = some S) :
    SM.mu = false ∧ ∃ old, SM.OldState = some old := by
  obtain ⟨c, o, d, lt, ft, u, uf, us, ls, hb, avg, inf, mu⟩ := SM
  cases mu <;> cases o <;> cases a <;> cases b <;>
    simp [SetMasterUpAndSync, IsFailable, Lock, Unlock] at h ⊢

/-- What a call that returns has done to the aggregate. -/
theorem step_spec (SM S : StateMachine) (op : Op) (h : step SM op = some S) :
    match op with
    | .Init now => S = Init SM now
    | .ResetUpTime now => S = ResetUpTime SM now
    | .SetSla mySla => S = SetSla SM mySla
    | .SetMasterUpAndSync now a b =>
      SM.mu = false ∧ ∃ old, SM.OldState = some old ∧ SetMasterUpAndSync SM now a b = some S
    | .IsFailable =>
      SM.mu = false ∧ ∃ old, SM.OldState = some old ∧
        S = { SM with discovered := SM.discovered || !rangeFindsError old }
    | .CanMonitor =>
      SM.mu = false ∧ ∃ cur, SM.CurState = some cur ∧
        S = { SM with discovered := SM.discovered || !rangeFindsError cur }
    | .UnDiscovered => S = { SM with discovered := false }
    | .ClearState => S = { SM with OldState := SM.CurState, CurState := some [] }
    | .AddState key s =>
      ∃ cur, SM.CurState = some cur ∧ S = { SM with CurState := some (Map.Add cur key s) }
    | .DeleteState key =>
      ∃ cur, SM.CurState = some cur ∧ S = { SM with CurState := some (Map.Delete cur key) }
    | .SetFailoverState => S = { SM with inFailover := true }
    | .RemoveFailoverState => S = { SM with inFailover := false }
    | _ => S = SM := by
  cases op with
  | SetMasterUpAndSync now a b =>
    obtain ⟨h1, old, h2⟩ := SetMasterUpAndSync_returns SM S now a b h
    exact ⟨h1, old, h2, h⟩
  | IsFailable =>
    obtain ⟨c, o, d, lt, ft, u, uf, us, ls, hb, avg, inf, mu⟩ := SM
    cases mu <;> cases o <;> simp [step, IsFailable, Lock, Unlock] at h ⊢
    rename_i old
    cases hr : rangeFindsError old <;> simp [hr] at h ⊢ <;> exact h.symm
  | CanMonitor =>
    obtain ⟨c, o, d, lt, ft, u, uf, us, ls, hb, avg, inf, mu⟩ := SM
    cases mu <;> cases c <;> simp [step, CanMonitor, Lock, Unlock] at h ⊢
    rename_i cur
    cases hr : rangeFindsError cur <;> simp [hr] at h ⊢ <;> exact h.symm
  | IsInState key =>
    obtain ⟨c, o, d, lt, ft, u, uf, us, ls, hb, avg, inf, mu⟩ := SM
    cases mu <;> cases o <;> simp [step, IsInState, Lock, Unlock] at h ⊢
    rename_i old
    cases hr : Map.Search old key <;> simp [hr] at h ⊢ <;> exact h.symm
  | _ =>
    obtain ⟨c, o, d, lt, ft, u, uf, us, ls, hb, avg, inf, mu⟩ := SM
    cases mu <;> cases c <;> cases o <;>
      simp [step, SetFailoverState, RemoveFailoverState, AddState, DeleteState, ClearState,
        UnDiscovered, GetStates, GetOpenErrors, GetOpenWarnings, Lock, Unlock, NewMap] at h ⊢ <;>
      exact h.symm

theorem run_append (SM : StateMachine) (pre post : List Op) :
    run SM (pre ++ post) = (run SM pre).bind fun S => run S post := by
  induction pre generalizing SM with
  | nil => simp [run]
  | cons op rest ih =>
    simp only [List.cons_append, run]
    cases step SM op with
    | none => simp
    | some S => simpa using ih S

theorem scenario_run : run zeroValue (Op.Init 1500000000 :: scenarioOps) = some scenarioEnd := by
  decide

/-! ## The heartbeat counter -/

theorem wrap64_add_wrap64 (x y : Int) : wrap64 (wrap64 x + y) = wrap64 (x + y) := by
  unfold wrap64
  omega

theorem step_heartbeats (SM S : StateMachine) (op : Op) (h : step SM op = some S)
    (hinit : Op.isInit op = false) :
    S.heartbeats = if Op.isTick op = true then add64 SM.heartbeats 1 else SM.heartbeats := by
  have hs := step_spec SM S op h
  cases op <;> simp [Op.isInit] at hinit <;> simp only [Op.isTick] at hs ⊢
  case SetMasterUpAndSync now a b =>
    obtain ⟨hmu, old, hold, htick⟩ := hs
    rw [SetMasterUpAndSync_eq SM old now a b hmu hold] at htick
    cases hr : rangeFindsError old <;> simp [hr] at htick <;> subst htick <;> simp
  case AddState key s => obtain ⟨cur, -, rfl⟩ := hs; simp
  case DeleteState key => obtain ⟨cur, -, rfl⟩ := hs; simp
  case IsFailable => obtain ⟨-, old, -, rfl⟩ := hs; simp
  case CanMonitor => obtain ⟨-, cur, -, rfl⟩ := hs; simp
  all_goals subst hs; simp [SetSla, ResetUpTime]

theorem run_heartbeats (ops : List Op) (SM SM' : StateMachine)
    (hinit : ∀ op ∈ ops, Op.isInit op = false)
    (hwrapped : SM.heartbeats = wrap64 SM.heartbeats)
    (hrun : run SM ops = some SM') :
    SM'.heartbeats = wrap64 (SM.heartbeats + ticks ops) := by
  induction ops generalizing SM with
  | nil =>
    simp only [run, Option.some.injEq] at hrun
    subst hrun
    simpa [ticks] using hwrapped
  | cons op rest ih =>
    simp only [run] at hrun
    cases hstep : step SM op with
    | none => simp [hstep] at hrun
    | some S =>
      simp only [hstep, Option.some_bind] at hrun
      have hop := step_heartbeats SM S op hstep (hinit op (List.mem_cons_self _ _))
      have hrest : ∀ o ∈ rest, Op.isInit o = false :=
        fun o ho => hinit o (List.mem_cons_of_mem _ ho)
      cases htick : Op.isTick op with
      | false =>
        simp only [htick, Bool.false_eq_true, if_false] at hop
        have := ih S hrest (by rw [hop]; exact hwrapped) hrun
        rw [this, hop]
        simp [ticks, List.filter_cons, htick]
      | true =>
        simp only [htick, if_true] at hop
        have hw : S.heartbeats = wrap64 S.heartbeats := by
          rw [hop]; unfold add64 wrap64; omega
        have := ih S hrest hw hrun
        rw [this, hop]
        unfold add64
        rw [wrap64_add_wrap64]
        simp only [ticks, List.filter_cons, htick, if_true, List.length_cons]
        push_cast
        ring_nf

theorem run_ticks_returns (n : Nat) (now : Int) (a b : Bool) (S : StateMachine) (old : Map)
    (hmu : S.mu = false) (hold : S.OldState = some old) :
    ∃ S', run S (List.replicate n (Op.SetMasterUpAndSync now a b)) = some S' ∧
      S'.mu = false ∧ S'.OldState = some old := by
  induction n generalizing S with
  | zero => exact ⟨S, rfl, hmu, hold⟩
  | succ n ih =>
    have hstep := SetMasterUpAndSync_eq S old now a b hmu hold
    simp only [List.replicate_succ, run, step, hstep, Option.some_bind]
    apply ih
    · cases rangeFindsError old <;> simpa using hmu
    · cases rangeFindsError old <;> simpa using hold

theorem ticks_replicate (n : Nat) (now : Int) (a b : Bool) :
    ticks (List.replicate n (Op.SetMasterUpAndSync now a b)) = n ∧
      ∀ op ∈ List.replicate n (Op.SetMasterUpAndSync now a b), Op.isInit op = false := by
  constructor
  · induction n with
    | zero => rfl
    | succ n ih =>
      simp only [ticks, List.replicate_succ, List.filter_cons, Op.isTick, if_true,
        List.length_cons] at ih ⊢
      rw [ih]
  · intro op hop
    rw [List.eq_of_mem_replicate hop]
    rfl

theorem ticks_append (l1 l2 : List Op) : ticks (l1 ++ l2) = ticks l1 + ticks l2 := by
  simp [ticks, List.filter_append]

theorem manyTicks_ticks : ticks manyTicks = 9223372036854775807 :=
  (ticks_replicate 9223372036854775807 0 false false).1

theorem manyTicks_no_init : ∀ op ∈ manyTicks, Op.isInit op = false :=
  (ticks_replicate 9223372036854775807 0 false false).2

theorem manyTicks_returns :
    ∃ S, run (Init zeroValue 0) manyTicks = some S ∧ S.mu = false ∧ S.OldState = some [] :=
  run_ticks_returns 9223372036854775807 0 false false (Init zeroValue 0) [] rfl rfl

theorem run_init_cons (SM : StateMachine) (t0 : Int) (ops : List Op) :
    run SM (Op.Init t0 :: ops) = run (Init SM t0) ops := rfl

/-- C15, as stated, fails: `heartbeats` is an int64.  After `Init` and 2^63 - 1
ticks it is 2^63 - 1; the next tick, the 2^63-th, wraps it to -2^63, which is
neither the number of ticks nor at least the value before. -/
theorem heartbeats_wraps :
    ∃ S S', run zeroValue (Op.Init 0 :: manyTicks) = some S ∧
      GetHeartbeats S = 9223372036854775807 ∧
      run zeroValue (Op.Init 0 :: (manyTicks ++ [Op.SetMasterUpAndSync 0 false false])) =
        some S' ∧
      ticks (manyTicks ++ [Op.SetMasterUpAndSync 0 false false]) = 9223372036854775808 ∧
      GetHeartbeats S' = -9223372036854775808 := by
  obtain ⟨S, hS, hmu, hold⟩ := manyTicks_returns
  obtain ⟨S', hS', -, -⟩ := run_ticks_returns 1 0 false false S [] hmu hold
  have hrun' : run (Init zeroValue 0) (manyTicks ++ [Op.SetMasterUpAndSync 0 false false]) =
      some S' := by
    rw [run_append, hS]
    exact hS'
  have hone : ticks [Op.SetMasterUpAndSync 0 false false] = 1 := rfl
  have hcount : ticks (manyTicks ++ [Op.SetMasterUpAndSync 0 false false]) =
      9223372036854775808 := by
    rw [ticks_append, manyTicks_ticks, hone]
  have hni' : ∀ op ∈ manyTicks ++ [Op.SetMasterUpAndSync 0 false false],
      Op.isInit op = false := by
    intro op hop
    rcases List.mem_append.1 hop with h | h
    · exact manyTicks_no_init op h
    · rw [List.mem_singleton.1 h]; rfl
  have hz : (Init zeroValue 0).heartbeats = wrap64 (Init zeroValue 0).heartbeats := by decide
  have hb := run_heartbeats manyTicks (Init zeroValue 0) S manyTicks_no_init hz hS
  have hb' := run_heartbeats _ (Init zeroValue 0) S' hni' hz hrun'
  rw [manyTicks_ticks] at hb
  rw [hcount] at hb'
  refine ⟨S, S', ?_, ?_, ?_, hcount, ?_⟩
  · rw [run_init_cons]; exact hS
  · rw [GetHeartbeats, hb]; decide
  · rw [run_init_cons]; exact hrun'
  · rw [GetHeartbeats, hb']; decide

/-- C15, amended.  In a state reached from `Init` by calls of public methods in
which fewer than 2^63 are ticks (and none is a further `Init`), `GetHeartbeats`
is the number of `SetMasterUpAndSync` calls made; it is at least what it was
after any earlier part of the run; and a call that is neither a tick nor `Init`
(`ResetUpTime` and `SetSla` among them) leaves `heartbeats` unchanged. -/
theorem heartbeats_count (SM0 SM' : StateMachine) (t0 : Int) (ops : List Op)
    (hinit : ∀ op ∈ ops, Op.isInit op = false)
    (hbound : ticks ops < 9223372036854775808)
    (hrun : run SM0 (Op.Init t0 :: ops) = some SM') :
    GetHeartbeats SM' = ticks ops ∧
      (∀ pre post, ops = pre ++ post →
        ∃ S, run SM0 (Op.Init t0 :: pre) = some S ∧ GetHeartbeats S ≤ GetHeartbeats SM') ∧
      ∀ S S' op, step S op = some S' → Op.isInit op = false → Op.isTick op = false →
        GetHeartbeats S' = GetHeartbeats S := by
  have hrun0 : run (Init SM0 t0) ops = some SM' := by simpa [run, step] using hrun
  have hcount : ∀ (l : List Op) (S : StateMachine), (∀ op ∈ l, Op.isInit op = false) →
      ticks l < 9223372036854775808 → run (Init SM0 t0) l = some S →
      S.heartbeats = ticks l := by
    intro l S hl hlt hr
    have h := run_heartbeats l (Init SM0 t0) S hl rfl hr
    rw [h]
    show wrap64 (0 + (ticks l : Int)) = ticks l
    rw [zero_add]
    apply wrap64_of_isInt64
    unfold isInt64
    omega
  refine ⟨hcount ops SM' hinit hbound hrun0, ?_, ?_⟩
  · intro pre post hsplit
    subst hsplit
    rw [run_append] at hrun0
    cases hpre : run (Init SM0 t0) pre with
    | none => simp [hpre] at hrun0
    | some S =>
      rw [hpre] at hrun0
      have hle : ticks pre ≤ ticks (pre ++ post) := by
        simp [ticks, List.filter_append]
      refine ⟨S, by simpa [run, step] using hpre, ?_⟩
      show S.heartbeats ≤ SM'.heartbeats
      rw [hcount pre S (fun op hop => hinit op (List.mem_append_left _ hop))
          (lt_of_le_of_lt hle hbound) hpre,
        hcount (pre ++ post) SM' hinit hbound (by rw [run_append, hpre]; exact hrun0)]
      exact_mod_cast hle
  · intro S S' op hstep hi ht
    have h := step_heartbeats S S' op hstep hi
    simpa [ht, GetHeartbeats] using h

/-- Scenario of C15, amended: the run `scenarioOps` after `Init` holds three
ticks. -/
theorem heartbeats_count_witness :
    GetHeartbeats scenarioEnd = 3 ∧ ticks scenarioOps = 3 := by
  have h := (heartbeats_count zeroValue scenarioEnd 1500000000 scenarioOps (by decide)
    (by decide) scenario_run).1
  exact ⟨h, by decide⟩

/-! ## Lock discipline -/

/-- C16 (lock discipline), evaluated.  On `midCycle` and `healthyTicked`, whose
mutex is free, each of the twelve locking operations returns with the mutex
free, on the early-return paths as on the others.  On `heldElsewhere`, whose
mutex is held, none of the twelve returns: each one waits in `Lock`.  But
`IsInFailover` and `IsDiscovered` return the flag at once on `heldElsewhere`:
they read it without acquiring the mutex. -/
theorem flag_readers_take_no_lock :
    ((AddState midCycle "D" ⟨"ERROR", "d is down", "TOPO"⟩).map fun S => S.mu) = some false ∧
    ((DeleteState midCycle "C").map fun S => S.mu) = some false ∧
    ((IsInState midCycle "A").map fun r => (r.1, r.2.mu)) = some (true, false) ∧
    ((IsInState midCycle "D").map fun r => (r.1, r.2.mu)) = some (false, false) ∧
    ((ClearState midCycle).map fun S => S.mu) = some false ∧
    ((CanMonitor midCycle).map fun r => (r.1, r.2.mu)) = some (false, false) ∧
    ((CanMonitor healthyTicked).map fun r => (r.1, r.2.mu)) = some (true, false) ∧
    ((IsFailable midCycle).map fun r => (r.1, r.2.mu)) = some (false, false) ∧
    ((IsFailable healthyTicked).map fun r => (r.1, r.2.mu)) = some (true, false) ∧
    ((GetStates midCycle).map fun r => r.2.mu) = some false ∧
    ((GetOpenErrors midCycle).map fun r => r.2.mu) = some false ∧
    ((GetOpenWarnings midCycle).map fun r => r.2.mu) = some false ∧
    ((SetFailoverState midCycle).map fun S => S.mu) = some false ∧
    ((RemoveFailoverState midCycle).map fun S => S.mu) = some false ∧
    ((UnDiscovered midCycle).map fun S => S.mu) = some false ∧
    AddState heldElsewhere "D" ⟨"ERROR", "d is down", "TOPO"⟩ = none ∧
    DeleteState heldElsewhere "C" = none ∧
    IsInState heldElsewhere "A" = none ∧
    ClearState heldElsewhere = none ∧
    CanMonitor heldElsewhere = none ∧
    IsFailable heldElsewhere = none ∧
    GetStates heldElsewhere = none ∧
    GetOpenErrors heldElsewhere = none ∧
    GetOpenWarnings heldElsewhere = none ∧
    SetFailoverState heldElsewhere = none ∧
    RemoveFailoverState heldElsewhere = none ∧
    UnDiscovered heldElsewhere = none ∧
    IsInFailover heldElsewhere = true ∧
    IsDiscovered heldElsewhere = true := by
  decide

/-! ## Zero-length window -/

theorem Float64.ofInt64_neg (u : Int) (hu : u < 0) :
    ∃ q : ℚ, 0 < q ∧ Float64.ofInt64 u = Float64.fin true q := by
  have hq : (0 : ℚ) < ((u.natAbs : ℕ) : ℚ) := by
    have : 0 < u.natAbs := Int.natAbs_pos.2 (ne_of_lt hu)
    exact_mod_cast this
  refine ⟨roundBinary64 ((u.natAbs : ℕ) : ℚ), roundBinary64_pos _ hq, ?_⟩
  unfold Float64.ofInt64
  rw [if_neg (ne_of_lt hu)]
  simp [hu]

/-- What `FormatFloat(100*float64(acc)/float64(0), 'f', 5, 64)` prints. -/
theorem zero_window_prints (acc : Int) :
    FormatFloat5 (Float64.div (Float64.mul (Float64.fin false 100) (Float64.ofInt64 acc))
      (Float64.ofInt64 0)) =
      if acc = 0 then "NaN" else if 0 < acc then "+Inf" else "-Inf" := by
  have hzero : Float64.ofInt64 0 = Float64.fin false 0 := by simp [Float64.ofInt64]
  rw [hzero]
  rcases lt_trichotomy acc 0 with h | h | h
  · obtain ⟨q, hq, hof⟩ := Float64.ofInt64_neg acc h
    have hg : roundBinary64 (100 * q) ≠ 0 := (roundBinary64_pos _ (by positivity)).ne'
    rw [hof, if_neg (ne_of_lt h), if_neg (not_lt.2 h.le)]
    simp [Float64.mul, Float64.div, hq.ne', hg, FormatFloat5]
  · subst h
    rw [hzero]
    simp [Float64.mul, Float64.div, FormatFloat5]
  · have hq : 0 < roundBinary64 (acc : ℚ) := roundBinary64_pos _ (by exact_mod_cast h)
    have hg : roundBinary64 (100 * roundBinary64 (acc : ℚ)) ≠ 0 :=
      (roundBinary64_pos _ (by positivity)).ne'
    rw [Float64.ofInt64_pos acc h, if_neg (ne_of_gt h), if_pos h]
    simp [Float64.mul, Float64.div, hq.ne', hg, FormatFloat5]

theorem sub64_self (t : Int) : sub64 t t = 0 := by
  unfold sub64 wrap64
  omega

/-- C17 (zero-length window).  In every state with `lasttime = firsttime` each of
`GetUptime`, `GetUptimeFailable` and `GetUptimeSemiSync` returns (the getters
are total) and the string returned is "NaN" when its accumulator is 0, "+Inf"
when it is positive and "-Inf" when it is negative. -/
theorem zero_window (SM : StateMachine) (hw : SM.lasttime = SM.firsttime) :
    GetUptime SM =
        (if SM.uptime = 0 then "NaN" else if 0 < SM.uptime then "+Inf" else "-Inf") ∧
      GetUptimeFailable SM =
        (if SM.uptimeFailable = 0 then "NaN"
          else if 0 < SM.uptimeFailable then "+Inf" else "-Inf") ∧
      GetUptimeSemiSync SM =
        (if SM.uptimeSemisync = 0 then "NaN"
          else if 0 < SM.uptimeSemisync then "+Inf" else "-Inf") := by
  have hclamp : ∀ acc : Int,
      (if acc = 0 then "NaN" else if 0 < acc then "+Inf" else "-Inf") ≠ "100.00000" := by
    intro acc
    split_ifs <;> decide
  refine ⟨?_, ?_, ?_⟩
  · simp only [GetUptime, hw, sub64_self, zero_window_prints]
    rw [if_neg (hclamp _)]
  · simp only [GetUptimeFailable, hw, sub64_self, zero_window_prints]
    rw [if_neg (hclamp _)]
  · simp only [GetUptimeSemiSync, hw, sub64_self, zero_window_prints]
    rw [if_neg (hclamp _)]

/-- Scenario of C17: right after `Init` all three getters return "NaN"; with a
checkpoint restored before the first tick a positive accumulator prints as
"+Inf" and a negative one as "-Inf". -/
theorem zero_window_witness :
    GetUptime (Init zeroValue 1500000000) = "NaN" ∧
      GetUptimeFailable (Init zeroValue 1500000000) = "NaN" ∧
      GetUptimeSemiSync (Init zeroValue 1500000000) = "NaN" ∧
      GetUptimeFailable (SetSla (Init zeroValue 1500000000) ⟨1500000000, 0, 5, -5⟩) = "+Inf" ∧
      GetUptimeSemiSync (SetSla (Init zeroValue 1500000000) ⟨1500000000, 0, 5, -5⟩) = "-Inf" := by
  have h1 := zero_window (Init zeroValue 1500000000) rfl
  have h2 := zero_window (SetSla (Init zeroValue 1500000000) ⟨1500000000, 0, 5, -5⟩) rfl
  refine ⟨h1.1, h1.2.1, h1.2.2, ?_, ?_⟩
  · rw [h2.2.1]; decide
  · rw [h2.2.2]; decide

/-! ## The tick and the current snapshot -/

/-- C19 (tick credit depends only on the finalised cycle).  For an initialised
aggregate with the mutex free and any replacement `c` of `CurState`, the tick
on the aggregate with `CurState` replaced returns the state the tick on the
original returns, with `CurState` replaced: all other fields, among them the
three accumulators, `lasttime`, `heartbeats` and `discovered`, are the same.
The tick leaves `CurState`, `OldState`, `firsttime` and `inFailover` as they
were, and when `OldState` holds no "ERROR" record it credits `uptime` whatever
`CurState` holds. -/
theorem tick_ignores_current (SM : StateMachine) (old : Map) (c : Option Map) (now : Int)
    (IsSemiSynced IsNotDelay : Bool) (hmu : SM.mu = false) (hold : SM.OldState = some old) :
    ∃ S, SetMasterUpAndSync SM now IsSemiSynced IsNotDelay = some S ∧
      SetMasterUpAndSync { SM with CurState := c } now IsSemiSynced IsNotDelay =
        some { S with CurState := c } ∧
      S.CurState = SM.CurState ∧ S.OldState = SM.OldState ∧
      S.firsttime = SM.firsttime ∧ S.inFailover = SM.inFailover ∧
      ((∀ e ∈ old, e.2.ErrType ≠ "ERROR") →
        ∀ S', SetMasterUpAndSync { SM with CurState := c } now IsSemiSynced IsNotDelay =
            some S' →
          S'.uptime = add64 SM.uptime (sub64 now SM.lasttime)) := by
  have h1 := SetMasterUpAndSync_eq SM old now IsSemiSynced IsNotDelay hmu hold
  have h2 := SetMasterUpAndSync_eq { SM with CurState := c } old now IsSemiSynced IsNotDelay
    hmu hold
  refine ⟨_, h1, ?_, ?_, ?_, ?_, ?_, ?_⟩
  · rw [h2]
    cases rangeFindsError old <;> simp
  · cases rangeFindsError old <;> simp
  · cases rangeFindsError old <;> simp
  · cases rangeFindsError old <;> simp
  · cases rangeFindsError old <;> simp
  · intro hok S' hS'
    rw [h2, rangeFindsError_eq_false old hok] at hS'
    simp only [Bool.false_eq_true, if_false, Option.some.injEq] at hS'
    subst hS'
    rfl

/-- Scenario of C19: an "ERROR" record sits in `CurState` of `healthyTicked`, not
yet rotated; the tick ten seconds later still credits ten seconds. -/
theorem tick_ignores_current_witness :
    ∃ S', SetMasterUpAndSync
        { healthyTicked with
          CurState := some [("ERR00012", ⟨"ERROR", "Could not find a master", "TOPO"⟩)] }
        1500000020 true true = some S' ∧ S'.uptime = 20 := by
  obtain ⟨S, -, h2, -, -, -, -, hcredit⟩ :=
    tick_ignores_current healthyTicked []
      (some [("ERR00012", ⟨"ERROR", "Could not find a master", "TOPO"⟩)]) 1500000020 true true
      rfl rfl
  refine ⟨_, h2, ?_⟩
  rw [hcredit (by simp) _ h2]
  decide

/-! ## The discovered flag -/

theorem step_discovered (SM S : StateMachine) (op : Op) (h : step SM op = some S) :
    S.discovered =
      if Op.resetsDiscovery op = true then false
      else (SM.discovered || evaluatesHealthy SM op) := by
  have hs := step_spec SM S op h
  cases op <;> simp only [Op.resetsDiscovery, evaluatesHealthy] at hs ⊢
  case SetMasterUpAndSync now a b =>
    obtain ⟨hmu, old, hold, htick⟩ := hs
    rw [SetMasterUpAndSync_eq SM old now a b hmu hold] at htick
    rw [IsFailable_eq SM old hmu hold]
    cases hr : rangeFindsError old <;> simp [hr] at htick <;> subst htick <;> simp
  case IsFailable =>
    obtain ⟨hmu, old, hold, rfl⟩ := hs
    rw [IsFailable_eq SM old hmu hold]
    cases rangeFindsError old <;> simp
  case CanMonitor =>
    obtain ⟨hmu, cur, hcur, rfl⟩ := hs
    rw [CanMonitor_eq SM cur hmu hcur]
    cases rangeFindsError cur <;> simp
  case AddState key s => obtain ⟨cur, -, rfl⟩ := hs; simp
  case DeleteState key => obtain ⟨cur, -, rfl⟩ := hs; simp
  all_goals subst hs; simp [SetSla, ResetUpTime, Init]

theorem evaluatesHealthy_not_reset (SM : StateMachine) (op : Op)
    (h : evaluatesHealthy SM op = true) : Op.resetsDiscovery op = false := by
  cases op <;> simp [evaluatesHealthy] at h <;> rfl

theorem run_discovered (ops : List Op) (SM SM' : StateMachine) (hrun : run SM ops = some SM') :
    SM'.discovered = true ↔
      (SM.discovered = true ∧ ∀ o ∈ ops, Op.resetsDiscovery o = false) ∨
      ∃ pre op post S, ops = pre ++ op :: post ∧ run SM pre = some S ∧
        evaluatesHealthy S op = true ∧ ∀ o ∈ post, Op.resetsDiscovery o = false := by
  induction ops generalizing SM with
  | nil =>
    simp only [run, Option.some.injEq] at hrun
    subst hrun
    simp
  | cons o rest ih =>
    simp only [run] at hrun
    cases hstep : step SM o with
    | none => simp [hstep] at hrun
    | some S1 =>
      simp only [hstep, Option.some_bind] at hrun
      have hd := step_discovered SM S1 o hstep
      rw [ih S1 hrun]
      constructor
      · rintro (⟨h1, h2⟩ | ⟨pre, op, post, S, hsplit, hpre, hev, hpost⟩)
        · rw [hd] at h1
          cases hres : Op.resetsDiscovery o with
          | true => simp [hres] at h1
          | false =>
            simp only [hres, Bool.false_eq_true, if_false, Bool.or_eq_true] at h1
            rcases h1 with h1 | h1
            · left
              refine ⟨h1, ?_⟩
              intro x hx
              rcases List.mem_cons.1 hx with rfl | hx
              · exact hres
              · exact h2 x hx
            · right
              exact ⟨[], o, rest, SM, rfl, rfl, h1, h2⟩
        · right
          refine ⟨o :: pre, op, post, S, by rw [hsplit]; rfl, ?_, hev, hpost⟩
          simp only [run, hstep, Option.some_bind]
          exact hpre
      · rintro (⟨h1, h2⟩ | ⟨pre, op, post, S, hsplit, hpre, hev, hpost⟩)
        · left
          refine ⟨?_, fun x hx => h2 x (List.mem_cons_of_mem _ hx)⟩
          rw [hd, h2 o (List.mem_cons_self _ _)]
          simp [h1]
        · cases pre with
          | nil =>
            simp only [List.nil_append, List.cons.injEq] at hsplit
            obtain ⟨rfl, rfl⟩ := hsplit
            simp only [run, Option.some.injEq] at hpre
            subst hpre
            left
            refine ⟨?_, hpost⟩
            rw [hd, evaluatesHealthy_not_reset SM o hev]
            simp [hev]
          | cons p pre' =>
            simp only [List.cons_append, List.cons.injEq] at hsplit
            obtain ⟨rfl, rfl⟩ := hsplit
            right
            refine ⟨pre', op, post, S, rfl, ?_, hev, hpost⟩
            simpa [run, hstep] using hpre

/-- C18 (the discovered flag tracks health evaluations).  In a state reached from
`Init` by calls of public methods, `IsDiscovered` is true exactly when some call
of the run evaluated health and found it good (`CanMonitor` or `IsFailable`
returned true, also inside `SetMasterUpAndSync`) and no `Init` or
`UnDiscovered` was called after it.  A call that is neither `Init` nor
`UnDiscovered` and is not such a good health evaluation leaves the flag as it
was. -/
theorem discovered_tracks_health (SM0 SM' : StateMachine) (t0 : Int) (ops : List Op)
    (hrun : run SM0 (Op.Init t0 :: ops) = some SM') :
    (IsDiscovered SM' = true ↔
      ∃ pre op post S, ops = pre ++ op :: post ∧ run SM0 (Op.Init t0 :: pre) = some S ∧
        evaluatesHealthy S op = true ∧ ∀ o ∈ post, Op.resetsDiscovery o = false) ∧
      ∀ S S' op, step S op = some S' → Op.resetsDiscovery op = false →
        evaluatesHealthy S op = false → IsDiscovered S' = IsDiscovered S := by
  constructor
  · have h := run_discovered ops (Init SM0 t0) SM' (by simpa [run, step] using hrun)
    have hinit : (Init SM0 t0).discovered = false := rfl
    simpa [IsDiscovered, hinit, run, step] using h
  · intro S S' op hstep hres hev
    have hd := step_discovered S S' op hstep
    simpa [hres, hev, IsDiscovered] using hd

/-- Scenario of C18: in the run `scenarioOps` the first tick finds `OldState`
healthy and nothing resets the flag afterwards, so the flag is set at the end. -/
theorem discovered_tracks_health_witness :
    IsDiscovered scenarioEnd = true ∧
      ∃ pre op post S, scenarioOps = pre ++ op :: post ∧
        run zeroValue (Op.Init 1500000000 :: pre) = some S ∧
        evaluatesHealthy S op = true ∧ ∀ o ∈ post, Op.resetsDiscovery o = false := by
  have h := (discovered_tracks_health zeroValue scenarioEnd 1500000000 scenarioOps
    scenario_run).1
  exact ⟨rfl, h.1 rfl⟩

/-! ## Accumulators and the window -/

/-- One call that returns keeps the bounds on the accumulators and moves
`lasttime` to its clock reading, if it has one. -/
theorem step_bounds (SM S : StateMachine) (op : Op) (h : step SM op = some S)
    (hsla : Op.isSetSla op = false)
    (hclock : ∀ now, Op.clock op = some now → SM.lasttime ≤ now)
    (hrange : ∀ now a b, op = Op.SetMasterUpAndSync now a b → tickInRange SM now = true)
    (hinv : 0 ≤ SM.uptimeSemisync ∧ SM.uptimeSemisync ≤ SM.uptime ∧
      0 ≤ SM.uptimeFailable ∧ SM.uptimeFailable ≤ SM.uptime ∧
      SM.uptime ≤ SM.lasttime - SM.firsttime) :
    (0 ≤ S.uptimeSemisync ∧ S.uptimeSemisync ≤ S.uptime ∧
      0 ≤ S.uptimeFailable ∧ S.uptimeFailable ≤ S.uptime ∧
      S.uptime ≤ S.lasttime - S.firsttime) ∧
    S.lasttime = (match Op.clock op with
      | some now => now
      | none => SM.lasttime) := by
  have hs := step_spec SM S op h
  cases op <;> simp only [Op.isSetSla, Op.clock] at hs hsla hclock ⊢
  case SetSla mySla => simp at hsla
  case SetMasterUpAndSync now a b =>
    obtain ⟨hmu, old, hold, htick⟩ := hs
    have hle : SM.lasttime ≤ now := hclock now rfl
    have hr := hrange now a b rfl
    rw [SetMasterUpAndSync_eq SM old now a b hmu hold] at htick
    cases herr : rangeFindsError old with
    | true =>
      simp only [herr, if_true, Option.some.injEq] at htick
      subst htick
      obtain ⟨i1, i2, i3, i4, i5⟩ := hinv
      refine ⟨⟨i1, i2, i3, i4, ?_⟩, rfl⟩
      show SM.uptime ≤ now - SM.firsttime
      omega
    | false =>
      simp only [herr, Bool.false_eq_true, if_false, Option.some.injEq] at htick
      simp only [tickInRange, hold, herr, Bool.false_or, Bool.and_eq_true,
        decide_eq_true_eq] at hr
      obtain ⟨hr1, hr2⟩ := hr
      have hsub : sub64 now SM.lasttime = now - SM.lasttime := wrap64_of_isInt64 _ hr1
      have hadd : ∀ x : Int, 0 ≤ x → x ≤ SM.uptime →
          add64 x (sub64 now SM.lasttime) = x + (now - SM.lasttime) := by
        intro x h0 h1
        rw [hsub]
        apply wrap64_of_isInt64
        unfold isInt64 at hr2 ⊢
        omega
      have hu := hadd SM.uptime (by omega) le_rfl
      have hus := hadd SM.uptimeSemisync hinv.1 hinv.2.1
      have huf := hadd SM.uptimeFailable hinv.2.2.1 hinv.2.2.2.1
      subst htick
      obtain ⟨i1, i2, i3, i4, i5⟩ := hinv
      refine ⟨?_, rfl⟩
      simp only [hu, hus, huf]
      cases a <;> cases b <;> simp <;> omega
  case Init now => subst hs; simp [Init]
  case ResetUpTime now => subst hs; simp [ResetUpTime]
  case AddState key s => obtain ⟨cur, -, rfl⟩ := hs; exact ⟨hinv, rfl⟩
  case DeleteState key => obtain ⟨cur, -, rfl⟩ := hs; exact ⟨hinv, rfl⟩
  case IsFailable => obtain ⟨-, old, -, rfl⟩ := hs; exact ⟨hinv, rfl⟩
  case CanMonitor => obtain ⟨-, cur, -, rfl⟩ := hs; exact ⟨hinv, rfl⟩
  all_goals subst hs; exact ⟨hinv, rfl⟩

theorem run_bounds (ops : List Op) (SM SM' : StateMachine)
    (hsla : ∀ op ∈ ops, Op.isSetSla op = false)
    (hclock : clockAscends SM.lasttime ops = true)
    (hno : noOverflow SM ops = true)
    (hrun : run SM ops = some SM')
    (hinv : 0 ≤ SM.uptimeSemisync ∧ SM.uptimeSemisync ≤ SM.uptime ∧
      0 ≤ SM.uptimeFailable ∧ SM.uptimeFailable ≤ SM.uptime ∧
      SM.uptime ≤ SM.lasttime - SM.firsttime) :
    0 ≤ SM'.uptimeSemisync ∧ SM'.uptimeSemisync ≤ SM'.uptime ∧
      0 ≤ SM'.uptimeFailable ∧ SM'.uptimeFailable ≤ SM'.uptime ∧
      SM'.uptime ≤ SM'.lasttime - SM'.firsttime := by
  induction ops generalizing SM with
  | nil =>
    simp only [run, Option.some.injEq] at hrun
    subst hrun
    exact hinv
  | cons op rest ih =>
    simp only [run] at hrun
    cases hstep : step SM op with
    | none => simp [hstep] at hrun
    | some S =>
      simp only [hstep, Option.some_bind] at hrun
      simp only [noOverflow, hstep, Bool.and_eq_true] at hno
      have hc1 : ∀ now, Op.clock op = some now → SM.lasttime ≤ now := by
        intro now hnow
        simp only [clockAscends, hnow, Bool.and_eq_true, decide_eq_true_eq] at hclock
        exact hclock.1
      have hr1 : ∀ now a b, op = Op.SetMasterUpAndSync now a b →
          tickInRange SM now = true := by
        intro now a b hop
        subst hop
        exact hno.1
      obtain ⟨hS, hlast⟩ := step_bounds SM S op hstep (hsla op (List.mem_cons_self _ _))
        hc1 hr1 hinv
      refine ih S (fun o ho => hsla o (List.mem_cons_of_mem _ ho)) ?_ hno.2 hrun hS
      rw [hlast]
      cases hck : Op.clock op with
      | none => simpa [clockAscends, hck] using hclock
      | some now =>
        simp only [clockAscends, hck, Bool.and_eq_true] at hclock
        exact hclock.2

theorem ratio_le_hundred (acc window : Int) (h : acc ≤ window) (hw : 0 < window) :
    100 * (acc : ℚ) / (window : ℚ) ≤ 100 := by
  have hwq : (0 : ℚ) < (window : ℚ) := by exact_mod_cast hw
  have hq : (acc : ℚ) ≤ (window : ℚ) := by exact_mod_cast h
  rw [div_le_iff₀ hwq]
  linarith

/-- C20 (accumulators are bounded by the window).  In a state reached from `Init`
by calls of public methods other than `SetSla`, in which each clock reading is
at least the one before and no tick overflows int64,
`0 ≤ uptimeSemisync ≤ uptime`, `0 ≤ uptimeFailable ≤ uptime` and
`uptime ≤ lasttime - firsttime`; hence when the window is positive each of the
three ratios `100 * accumulator / window` is at most 100. -/
theorem accumulators_bounded (SM0 SM' : StateMachine) (t0 : Int) (ops : List Op)
    (hsla : ∀ op ∈ ops, Op.isSetSla op = false)
    (hclock : clockAscends t0 ops = true)
    (hno : noOverflow (Init SM0 t0) ops = true)
    (hrun : run SM0 (Op.Init t0 :: ops) = some SM') :
    0 ≤ SM'.uptimeSemisync ∧ SM'.uptimeSemisync ≤ SM'.uptime ∧
      0 ≤ SM'.uptimeFailable ∧ SM'.uptimeFailable ≤ SM'.uptime ∧
      SM'.uptime ≤ SM'.lasttime - SM'.firsttime ∧
      (0 < SM'.lasttime - SM'.firsttime →
        100 * (SM'.uptime : ℚ) / ((SM'.lasttime - SM'.firsttime : Int) : ℚ) ≤ 100 ∧
        100 * (SM'.uptimeFailable : ℚ) / ((SM'.lasttime - SM'.firsttime : Int) : ℚ) ≤ 100 ∧
        100 * (SM'.uptimeSemisync : ℚ) / ((SM'.lasttime - SM'.firsttime : Int) : ℚ) ≤ 100) := by
  have hb := run_bounds ops (Init SM0 t0) SM' hsla hclock hno
    (by simpa [run, step] using hrun) (by simp [Init])
  obtain ⟨h1, h2, h3, h4, h5⟩ := hb
  refine ⟨h1, h2, h3, h4, h5, ?_⟩
  intro hw
  exact ⟨ratio_le_hundred _ _ h5 hw, ratio_le_hundred _ _ (le_trans h4 h5) hw,
    ratio_le_hundred _ _ (le_trans h2 h5) hw⟩

/-- Scenario of C20: at the end of the run `scenarioOps` the window is 30 seconds,
`uptime` and `uptimeSemisync` are 20 and `uptimeFailable` is 10. -/
theorem accumulators_bounded_witness :
    scenarioEnd.uptimeSemisync ≤ scenarioEnd.uptime ∧
      scenarioEnd.uptimeFailable ≤ scenarioEnd.uptime ∧
      scenarioEnd.uptime ≤ scenarioEnd.lasttime - scenarioEnd.firsttime ∧
      100 * (scenarioEnd.uptime : ℚ) /
        ((scenarioEnd.lasttime - scenarioEnd.firsttime : Int) : ℚ) ≤ 100 := by
  have h := accumulators_bounded zeroValue scenarioEnd 1500000000 scenarioOps (by decide)
    (by decide) (by decide) scenario_run
  exact ⟨h.2.1, h.2.2.2.1, h.2.2.2.2.1, (h.2.2.2.2.2 (by decide)).1⟩

end state
